import Mathlib

/-!
# ResumeForge pipeline orchestration: verification of the specification

A shallow embedding of the pipeline orchestration engine of ResumeForge
(`src/resumeforge/orchestrator.py`, `src/resumeforge/utils/cache.py`,
`src/resumeforge/agents/base.py`, `src/resumeforge/schemas/*.py`) in Lean 4,
together with theorems settling the specification's testable properties.

Conventions of the embedding:
* Python `int` is modelled as `Int`, `str` as `String`, `list` as `List`,
  `dict[str, T]` as an association list `List (String × T)`, and optional
  fields as `Option`.
* Pydantic models become Lean structures with the same field names.
  The pydantic/`json` serialization round trip (`model_dump` / `model_validate`,
  `json.dump` / `json.load`) on well-formed data is third-party library
  behaviour and is modelled as the identity correspondence between a record
  and its field dictionary; what the repository's own code adds on top of it
  (extra keys, metadata popping, file ordering) is modelled explicitly.
* External agent calls (`agent.execute(blackboard)`) are opaque collaborators
  per the spec and are abstracted as a function parameter
  `agents : PipelineState → Blackboard → Except String Blackboard`, the
  `Except.error` case modelling a raised exception.
* File-system effects are modelled by explicit state passing over a record of
  directories and files.
-/

set_option autoImplicit false
set_option linter.unnecessarySeqFocus false

namespace ResumeForge

/-! ## Data model (`schemas/blackboard.py`, `schemas/evidence_card.py`) -/

/-- `Priority` enum from `schemas/blackboard.py`. -/
inductive Priority where
  | high | medium | low
  deriving DecidableEq, Repr

/-- `Confidence` enum from `schemas/blackboard.py`. -/
inductive Confidence where
  | high | medium | low
  deriving DecidableEq, Repr

/-- `GapStrategy` enum from `schemas/blackboard.py`. -/
inductive GapStrategy where
  | omit | adjacent | ask_user
  deriving DecidableEq, Repr

/-- `MetricEntry` model from `schemas/evidence_card.py`. -/
structure MetricEntry where
  value : String
  description : String
  context : Option String := none
  deriving DecidableEq, Repr

/-- `ScopeInfo` model from `schemas/evidence_card.py`. -/
structure ScopeInfo where
  team_size : Option Int := none
  direct_reports : Option Int := none
  geography : List String := []
  budget : Option String := none
  deriving DecidableEq, Repr

/-- `EvidenceCard` model from `schemas/evidence_card.py`. -/
structure EvidenceCard where
  id : String
  project : String
  company : String
  timeframe : String
  role : String
  scope : ScopeInfo := {}
  metrics : List MetricEntry := []
  skills : List String := []
  leadership_signals : List String := []
  raw_text : String
  deriving DecidableEq, Repr

/-- `LengthRules` model from `schemas/blackboard.py`. -/
structure LengthRules where
  max_pages : Int := 2
  deriving DecidableEq, Repr

/-- `Inputs` model from `schemas/blackboard.py`. -/
structure Inputs where
  job_description : String
  target_title : String
  length_rules : LengthRules := {}
  template_path : String
  deriving DecidableEq, Repr

/-- `RoleProfile` model from `schemas/blackboard.py`.
`keyword_clusters : dict[str, list[str]]` is modelled as an association list. -/
structure RoleProfile where
  inferred_level : String
  must_haves : List String := []
  nice_to_haves : List String := []
  seniority_signals : List String := []
  keyword_clusters : List (String × List String) := []
  recommended_storylines : List String := []
  priority_sections : List String := []
  downplay_sections : List String := []
  deriving DecidableEq, Repr

/-- `Requirement` model from `schemas/blackboard.py`. -/
structure Requirement where
  id : String
  text : String
  priority : Priority := .medium
  keywords : List String := []
  deriving DecidableEq, Repr

/-- `EvidenceMapping` model from `schemas/blackboard.py`. -/
structure EvidenceMapping where
  requirement_id : String
  evidence_card_ids : List String
  confidence : Confidence
  notes : Option String := none
  deriving DecidableEq, Repr

/-- `GapResolution` model from `schemas/blackboard.py`. -/
structure GapResolution where
  gap_id : String
  requirement_text : String
  strategy : GapStrategy
  adjacent_evidence_ids : List String := []
  user_confirmed : Bool := false
  deriving DecidableEq, Repr

/-- `ResumeSection` model from `schemas/blackboard.py`. -/
structure ResumeSection where
  name : String
  content : String
  deriving DecidableEq, Repr

/-- `ResumeDraft` model from `schemas/blackboard.py`. -/
structure ResumeDraft where
  sections : List ResumeSection := []
  deriving DecidableEq, Repr

/-- `ClaimMapping` model from `schemas/blackboard.py`. -/
structure ClaimMapping where
  bullet_id : String
  bullet_text : String
  evidence_card_ids : List String
  deriving DecidableEq, Repr

/-- `ClaimMapping.validate_against_cards`: all referenced evidence cards exist. -/
def ClaimMapping.validate_against_cards (c : ClaimMapping)
    (available_card_ids : List String) : Bool :=
  c.evidence_card_ids.all (fun i => available_card_ids.contains i)

/-- `TruthViolation` model from `schemas/blackboard.py`. -/
structure TruthViolation where
  bullet_id : String
  bullet_text : String
  violation : String
  deriving DecidableEq, Repr

/-- `ATSReport` model from `schemas/blackboard.py`.  The two score fields are
Python floats; no arithmetic is ever performed on them by the orchestration
core (they are opaque payload), so they are modelled as exact rationals. -/
structure ATSReport where
  keyword_coverage_score : Rat
  supported_keywords : List String := []
  missing_keywords : List String := []
  format_warnings : List String := []
  role_signal_score : Rat
  deriving DecidableEq, Repr

/-- `AuditReport` model from `schemas/blackboard.py`. -/
structure AuditReport where
  truth_violations : List TruthViolation := []
  ats_suggestions : List String := []
  inconsistencies : List String := []
  passed : Bool := true
  deriving DecidableEq, Repr

/-- `UserQuestion` model from `schemas/blackboard.py`. -/
structure UserQuestion where
  gap_id : String
  question : String
  impact : String
  deriving DecidableEq, Repr

/-- `Blackboard` model from `schemas/blackboard.py`: the single shared state
record threaded through every pipeline stage. -/
structure Blackboard where
  inputs : Inputs
  evidence_cards : List EvidenceCard := []
  synonyms_map : List (String × List String) := []
  role_profile : Option RoleProfile := none
  requirements : List Requirement := []
  evidence_map : List EvidenceMapping := []
  gap_resolutions : List GapResolution := []
  selected_evidence_ids : List String := []
  resume_draft : Option ResumeDraft := none
  claim_index : List ClaimMapping := []
  change_log : List String := []
  ats_report : Option ATSReport := none
  audit_report : Option AuditReport := none
  questions_for_user : List UserQuestion := []
  current_step : String := "init"
  retry_count : Int := 0
  max_retries : Int := 3
  deriving DecidableEq, Repr

/-! ## Pipeline states and the transition table (`orchestrator.py`) -/

/-- `PipelineState` enum from `orchestrator.py`. -/
inductive PipelineState where
  | INIT | PREPROCESSING | JD_ANALYSIS | EVIDENCE_MAPPING | WRITING
  | AUDITING | REVISION | COMPLETE | FAILED
  deriving DecidableEq, Repr

/-- `state.name` of the Python enum member. -/
def PipelineState.name : PipelineState → String
  | .INIT => "INIT"
  | .PREPROCESSING => "PREPROCESSING"
  | .JD_ANALYSIS => "JD_ANALYSIS"
  | .EVIDENCE_MAPPING => "EVIDENCE_MAPPING"
  | .WRITING => "WRITING"
  | .AUDITING => "AUDITING"
  | .REVISION => "REVISION"
  | .COMPLETE => "COMPLETE"
  | .FAILED => "FAILED"

/-- `state.name.lower()` as used for `blackboard.current_step` and checkpoint
file names. -/
def PipelineState.nameLower : PipelineState → String
  | .INIT => "init"
  | .PREPROCESSING => "preprocessing"
  | .JD_ANALYSIS => "jd_analysis"
  | .EVIDENCE_MAPPING => "evidence_mapping"
  | .WRITING => "writing"
  | .AUDITING => "auditing"
  | .REVISION => "revision"
  | .COMPLETE => "complete"
  | .FAILED => "failed"

/-- `StateTransition` from `orchestrator.py`: a source state, a target state and
a guard condition over the blackboard (the Python default condition
`lambda _: True` becomes `fun _ => true`). -/
structure StateTransition where
  from_state : PipelineState
  to_state : PipelineState
  condition : Blackboard → Bool := fun _ => true

/-- The fixed `TRANSITIONS` table from `orchestrator.py` (lines 63-93), in
source order.  Guard conditions transcribe the Python lambdas:
`b.audit_report is not None and b.audit_report.passed` etc. -/
def TRANSITIONS : List StateTransition := [
  { from_state := .INIT, to_state := .PREPROCESSING },
  { from_state := .PREPROCESSING, to_state := .JD_ANALYSIS },
  { from_state := .JD_ANALYSIS, to_state := .EVIDENCE_MAPPING },
  { from_state := .EVIDENCE_MAPPING, to_state := .WRITING },
  { from_state := .WRITING, to_state := .AUDITING },
  { from_state := .AUDITING, to_state := .COMPLETE,
    condition := fun b => match b.audit_report with
      | some r => r.passed
      | none => false },
  { from_state := .AUDITING, to_state := .REVISION,
    condition := fun b => match b.audit_report with
      | some r => !r.passed && decide (b.retry_count < b.max_retries)
      | none => false },
  { from_state := .AUDITING, to_state := .FAILED,
    condition := fun b => match b.audit_report with
      | some r => !r.passed && decide (b.retry_count ≥ b.max_retries)
      | none => false },
  { from_state := .REVISION, to_state := .WRITING }
]

/-- `PipelineOrchestrator._get_next_state`, specialised to the case the claims
are about: `self._audit_failure_handler is None`, so the interactive
audit-failure block (guarded by `self._audit_failure_handler is not None`)
is skipped and only the normal transition scan over `TRANSITIONS` runs. The
scan returns the target of the first transition whose source matches and whose
condition holds, `none` otherwise. -/
def getNextState (current : PipelineState) (b : Blackboard) : Option PipelineState :=
  TRANSITIONS.findSome? fun t =>
    if t.from_state = current ∧ t.condition b then some t.to_state else none

/-! ## String helpers for the Python operations used by the orchestrator -/

/-- Python `str.lower()`, character-wise (the titles and keywords the
orchestrator handles are ASCII; `Char.toLower` agrees with Python there). -/
def pyLower (s : String) : String := String.mk (s.toList.map Char.toLower)

/-- `needle` is a prefix of `hay` (over character lists). -/
def charsHavePrefix : List Char → List Char → Bool
  | _, [] => true
  | [], _ :: _ => false
  | c :: cs, d :: ds => c = d && charsHavePrefix cs ds

/-- Python's substring test `needle in hay`. -/
def charsContain (hay needle : List Char) : Bool :=
  match hay with
  | [] => needle.isEmpty
  | _ :: rest => charsHavePrefix hay needle || charsContain rest needle

/-- Python's substring test `needle in hay` on strings. -/
def strContains (hay needle : String) : Bool :=
  charsContain hay.toList needle.toList

/-! ## `_filter_relevant_evidence_cards` (`orchestrator.py` lines 704-770) -/

/-- The searchable text of an evidence card, as built in
`_filter_relevant_evidence_cards`: `" ".join([project.lower(),
raw_text.lower(), " ".join(skills).lower(), " ".join(leadership_signals)
.lower(), role.lower()])`. -/
def cardSearchText (card : EvidenceCard) : String :=
  String.intercalate " "
    [pyLower card.project, pyLower card.raw_text,
     pyLower (String.intercalate " " card.skills),
     pyLower (String.intercalate " " card.leadership_signals),
     pyLower card.role]

/-- `PipelineOrchestrator._filter_relevant_evidence_cards`.  The Python
`jd_keywords` parameter is `list[str] | None`; `None` and `[]` are both falsy
under `if not jd_keywords`, so the `None` case is modelled by the empty list.
The 20% threshold `len(relevant) < len(all_cards) * 0.2` is modelled as the
exact comparison `5 * len(relevant) < len(all_cards)`; for every pair of list
lengths the double-precision product `n * 0.2` rounds to a value on the same
side of `len(relevant)` as the exact `n / 5`, so the two comparisons agree. -/
def filterRelevantEvidenceCards (all_cards : List EvidenceCard)
    (jd_keywords : List String) : List EvidenceCard :=
  if jd_keywords.isEmpty then all_cards
  else
    let jd_keywords_lower := (jd_keywords.filter (fun kw => kw ≠ "")).map pyLower
    if jd_keywords_lower.isEmpty then all_cards
    else
      let relevant := all_cards.filter fun card =>
        jd_keywords_lower.any fun kw => strContains (cardSearchText card) kw
      if all_cards.length = 0 then relevant
      else if 5 * relevant.length < all_cards.length then all_cards
      else relevant

/-! ## `Blackboard.validate_state` (`schemas/blackboard.py` lines 219-264) -/

/-- `Blackboard.validate_state`.  Returns `(is_valid, errors)`.  Error strings
are abbreviated renderings of the Python f-strings (the Python messages embed
a `set` repr of the dangling identifiers); only when an error is appended is
modelled exactly, and only the emptiness of the list is consumed by the
orchestrator. -/
def validateState (b : Blackboard) : Bool × List String :=
  let e1 :=
    if b.current_step = "evidence_mapping" ∨ b.current_step = "writing" ∨
        b.current_step = "auditing" then
      (if b.role_profile.isNone then
        ["role_profile required for evidence_mapping step"] else []) ++
      (if b.requirements.isEmpty then
        ["requirements required for evidence_mapping step"] else [])
    else []
  let e2 :=
    if b.current_step = "writing" ∨ b.current_step = "auditing" then
      (if b.evidence_map.isEmpty then
        ["evidence_map required for writing step"] else []) ++
      (if b.selected_evidence_ids.isEmpty then
        ["selected_evidence_ids required for writing step"] else [])
    else []
  let e3 :=
    if b.current_step = "auditing" then
      (if b.resume_draft.isNone then
        ["resume_draft required for auditing step"] else []) ++
      (if b.claim_index.isEmpty then
        ["claim_index required for auditing step"] else [])
    else []
  let available := b.evidence_cards.map (fun c => c.id)
  let e4 :=
    if !b.claim_index.isEmpty then
      (b.claim_index.filter fun c => !c.validate_against_cards available).map
        fun c => "Claim " ++ c.bullet_id ++ " references non-existent evidence cards"
    else []
  let e5 :=
    if !b.selected_evidence_ids.isEmpty then
      if (b.selected_evidence_ids.filter fun i => !available.contains i).isEmpty
      then [] else ["selected_evidence_ids references non-existent cards"]
    else []
  let errors := e1 ++ e2 ++ e3 ++ e4 ++ e5
  (errors.isEmpty, errors)

/-! ## `_prepare_revision` and `_execute_state` (`orchestrator.py`) -/

/-- `PipelineOrchestrator._prepare_revision`: extracts truth violations from
the audit report and appends revision instructions to `change_log`. -/
def prepareRevision (b : Blackboard) : Blackboard :=
  match b.audit_report with
  | none => b
  | some report =>
    let violations := report.truth_violations
    if violations.isEmpty then b
    else
      let instrs :=
        ["REVISION ATTEMPT " ++ toString b.retry_count ++ " of " ++
          toString b.max_retries,
         "The following truth violations must be fixed:"]
        ++ (violations.flatMap fun v =>
             ["FIX REQUIRED: Bullet '" ++ v.bullet_id ++ "' - " ++ v.violation,
              "  Problematic text: " ++ v.bullet_text])
        ++ (if report.ats_suggestions.isEmpty then []
            else "\nATS Optimization Suggestions:" ::
              report.ats_suggestions.map (fun s => "  - " ++ s))
      { b with change_log := b.change_log ++ instrs }

/-- The external stage collaborators (`agent.execute(blackboard)` and the
file-loading `_preprocess` body): a function from the stage and the current
blackboard to either an updated blackboard or a raised exception (modelled as
`Except.error` carrying the exception text). -/
abbrev AgentExec := PipelineState → Blackboard → Except String Blackboard

/-- The JD keyword extraction performed inline in the `EVIDENCE_MAPPING`
branch of `_execute_state`: all keyword-cluster values, then `must_haves`,
then `nice_to_haves`. -/
def jdKeywordsOf (rp : RoleProfile) : List String :=
  (rp.keyword_clusters.flatMap fun kv => kv.2) ++ rp.must_haves ++ rp.nice_to_haves

/-- `PipelineOrchestrator._execute_state`.  Agent-backed stages
(`PREPROCESSING`, `JD_ANALYSIS`, `EVIDENCE_MAPPING`, `WRITING`, `AUDITING`)
call the external collaborator; before the Evidence Mapper runs, the
orchestrator pre-filters `evidence_cards` when a role profile is present.
`REVISION` increments `retry_count` and runs `_prepare_revision`; `INIT`,
`COMPLETE` and `FAILED` are no-ops returning the blackboard unchanged. -/
def executeState (agents : AgentExec) (state : PipelineState) (b : Blackboard) :
    Except String Blackboard :=
  match state with
  | .PREPROCESSING => agents .PREPROCESSING b
  | .JD_ANALYSIS => agents .JD_ANALYSIS b
  | .EVIDENCE_MAPPING =>
    let b := match b.role_profile with
      | some rp =>
        { b with evidence_cards :=
            filterRelevantEvidenceCards b.evidence_cards (jdKeywordsOf rp) }
      | none => b
    agents .EVIDENCE_MAPPING b
  | .WRITING => agents .WRITING b
  | .AUDITING => agents .AUDITING b
  | .REVISION => .ok (prepareRevision { b with retry_count := b.retry_count + 1 })
  | .INIT => .ok b
  | .COMPLETE => .ok b
  | .FAILED => .ok b

/-! ## The `run` loop (`orchestrator.py` lines 335-424) -/

/-- The loop's exit condition: `state in (COMPLETE, FAILED)`. -/
def isTerminal (s : PipelineState) : Bool := s = .COMPLETE || s = .FAILED

/-- Result of the `while` loop of `PipelineOrchestrator.run`: the terminal
state, the final blackboard, and the checkpoints saved along the way (each
recorded as the blackboard/state pair passed to `_save_checkpoint`). -/
structure LoopResult where
  state : PipelineState
  board : Blackboard
  checkpoints : List (Blackboard × PipelineState)
  deriving DecidableEq, Repr

/-- The `while state not in (COMPLETE, FAILED)` loop of
`PipelineOrchestrator.run`, with fuel (`none` means the loop did not reach a
terminal state within `fuel` iterations).  Per iteration: set
`current_step := state.name.lower()`; execute the state; on an exception,
attempt a checkpoint (for any state other than `INIT`) and break to `FAILED`;
otherwise validate the blackboard (break to `FAILED` on errors), checkpoint
(except for `INIT`/`COMPLETE`), and follow `_get_next_state` (break to
`FAILED` when no transition matches). -/
def runLoop (agents : AgentExec) : Nat → PipelineState → Blackboard →
    List (Blackboard × PipelineState) → Option LoopResult
  | 0, state, b, cps => if isTerminal state then some ⟨state, b, cps⟩ else none
  | fuel + 1, state, b, cps =>
    if isTerminal state then some ⟨state, b, cps⟩
    else
      let b := { b with current_step := state.nameLower }
      match executeState agents state b with
      | .error _ =>
        let cps := if state ≠ .INIT then cps ++ [(b, state)] else cps
        some ⟨.FAILED, { b with current_step := "failed" }, cps⟩
      | .ok b' =>
        if (validateState b').1 = false then
          some ⟨.FAILED, { b' with current_step := "failed" }, cps⟩
        else
          let cps :=
            if state ≠ .INIT ∧ state ≠ .COMPLETE then cps ++ [(b', state)] else cps
          match getNextState state b' with
          | none => some ⟨.FAILED, { b' with current_step := "failed" }, cps⟩
          | some s' => runLoop agents fuel s' b' cps

/-- Outcome of `PipelineOrchestrator.run` after the loop: the final blackboard,
the saved checkpoints, and the message of the `OrchestrationError` raised when
the loop ended in `FAILED` (`none` when the run completed). -/
structure RunOutcome where
  board : Blackboard
  checkpoints : List (Blackboard × PipelineState)
  errorMsg : Option String
  deriving DecidableEq, Repr

/-- The tail of `PipelineOrchestrator.run` after the loop: on `COMPLETE`, set
`current_step := "complete"` (output saving and latest-checkpoint cleanup are
file effects modelled separately); on `FAILED`, raise
`OrchestrationError(f"Pipeline failed at step: {blackboard.current_step}")`,
modelled by recording that message as `errorMsg`. -/
def runFromState (agents : AgentExec) (fuel : Nat) (state : PipelineState)
    (b : Blackboard) : Option RunOutcome :=
  match runLoop agents fuel state b [] with
  | none => none
  | some res =>
    if res.state = .COMPLETE then
      some ⟨{ res.board with current_step := "complete" }, res.checkpoints, none⟩
    else if res.state = .FAILED then
      some ⟨res.board, res.checkpoints,
        some ("Pipeline failed at step: " ++ res.board.current_step)⟩
    else
      some ⟨res.board, res.checkpoints, none⟩

/-! ## Title sanitisation and the checkpoint file model
(`orchestrator.py`: `_save_checkpoint`, `_load_checkpoint`,
`_find_latest_checkpoint`) -/

/-- Python `c.isalnum()`.  The titles handled by the orchestrator are ASCII,
where `Char.isAlphanum` agrees with Python's Unicode-aware predicate; the
sanitisation-equality theorems below are insensitive to the choice of
character predicate because both source sites use the same one. -/
def pyIsAlnum (c : Char) : Bool := c.isAlphanum

/-- One character of the title sanitisation:
`c if c.isalnum() or c in ("-", "_") else "-"`. -/
def sanitizeChar (c : Char) : Char :=
  if pyIsAlnum c || c = '-' || c = '_' then c else '-'

/-- Python `str.replace(old, new)` with a single-character pattern, which
replaces every occurrence of that character. -/
def pyReplaceChar (s : String) (old new : Char) : String :=
  String.mk (s.toList.map fun c => if c = old then new else c)

/-- The `safe_title` computation of `_save_checkpoint` (lines 134-138):
`"".join(c if c.isalnum() or c in ("-", "_") else "-" for c in
title.lower())[:50]` followed by `.replace(" ", "-")`. -/
def safeTitleSave (title : String) : String :=
  pyReplaceChar (String.mk (((pyLower title).toList.map sanitizeChar).take 50)) ' ' '-'

/-- The `safe_title` computation of `_find_latest_checkpoint` (lines 212-215):
`"".join(c if c.isalnum() or c in ("-", "_") else "-" for c in
title.lower())[:50].replace(" ", "-")`. -/
def safeTitleFind (title : String) : String :=
  pyReplaceChar (String.mk (((pyLower title).toList.map sanitizeChar).take 50)) ' ' '-'

/-- The three-step transformation named by the specification: lowercase,
replace every non-alphanumeric character other than `-` and `_` by `-`,
truncate to 50 characters. -/
def safeTitleSpec (title : String) : String :=
  String.mk (((pyLower title).toList.map sanitizeChar).take 50)

/-- The sidecar metadata object `_checkpoint_metadata` added by
`_save_checkpoint`: `{timestamp, state, step}`. -/
structure CheckpointMetadata where
  timestamp : String
  state : String
  step : String
  deriving DecidableEq, Repr

/-- The JSON dictionary written to a checkpoint file:
`blackboard.model_dump(mode="json")` plus the optional key
`_checkpoint_metadata`.  The pydantic pair `model_dump` / `model_validate` is
the identity correspondence between a well-formed `Blackboard` and its field
dictionary (third-party library contract), so the field dictionary is
represented by the `Blackboard` record itself, and the extra key the
orchestrator adds is the explicit `checkpoint_metadata` component. -/
structure CheckpointData where
  board : Blackboard
  checkpoint_metadata : Option CheckpointMetadata
  deriving DecidableEq, Repr

/-- The checkpoint dictionary built by `_save_checkpoint` before writing:
the dumped blackboard plus `_checkpoint_metadata = {timestamp, state.name,
blackboard.current_step}`. -/
def buildCheckpointData (b : Blackboard) (state : PipelineState)
    (timestamp : String) : CheckpointData :=
  { board := b,
    checkpoint_metadata :=
      some { timestamp := timestamp, state := state.name, step := b.current_step } }

/-- The body of `_load_checkpoint` after `json.load`:
`data.pop("_checkpoint_metadata", {})` removes the sidecar key, and
`Blackboard.model_validate(data)` reconstructs the blackboard from the
remaining fields.  The popped metadata is only logged. -/
def loadCheckpointData (d : CheckpointData) : Blackboard :=
  d.board

/-- A file-system state: the set of directories created and the checkpoint
files present (later writes to the same path replace earlier content). -/
structure Fs where
  dirs : List String := []
  files : List (String × CheckpointData) := []
  deriving DecidableEq, Repr

/-- A file-system operation performed by `_save_checkpoint`, in order. -/
inductive FsOp where
  | mkdir (path : String)
  | write (path : String) (data : CheckpointData)
  deriving DecidableEq, Repr

/-- Apply one file-system operation. -/
def applyOp (fs : Fs) : FsOp → Fs
  | .mkdir p =>
    { fs with dirs := if fs.dirs.contains p then fs.dirs else fs.dirs ++ [p] }
  | .write p d =>
    { fs with files := (p, d) :: fs.files.filter fun f => f.1 ≠ p }

/-- Apply a sequence of file-system operations in order. -/
def applyOps (fs : Fs) (ops : List FsOp) : Fs := ops.foldl applyOp fs

/-- `output_base_dir / ".checkpoints"`. -/
def checkpointsDirOf (outputsDir : String) : String := outputsDir ++ "/.checkpoints"

/-- The timestamped checkpoint file path
`{safe_title}-{state.name.lower()}-{timestamp}.json`. -/
def checkpointFilePath (outputsDir safeTitle stateLower timestamp : String) : String :=
  checkpointsDirOf outputsDir ++ "/" ++ safeTitle ++ "-" ++ stateLower ++ "-" ++
    timestamp ++ ".json"

/-- The per-run "latest" pointer file path `{safe_title}-latest.json`. -/
def latestFilePath (outputsDir safeTitle : String) : String :=
  checkpointsDirOf outputsDir ++ "/" ++ safeTitle ++ "-latest.json"

/-- The ordered file-system operations performed by `_save_checkpoint`:
create the checkpoints directory, write the full timestamped checkpoint file
(`json.dump` completes before the `with open` block exits), then copy it to
the "latest" pointer (`shutil.copy2`, modelled as a write of the same
content). -/
def saveCheckpointOps (outputsDir : String) (b : Blackboard)
    (state : PipelineState) (timestamp : String) : List FsOp :=
  let safe_title := safeTitleSave b.inputs.target_title
  let data := buildCheckpointData b state timestamp
  [ .mkdir (checkpointsDirOf outputsDir),
    .write (checkpointFilePath outputsDir safe_title state.nameLower timestamp) data,
    .write (latestFilePath outputsDir safe_title) data ]

/-- `_save_checkpoint`: apply the save operations and return the new
file-system state together with the checkpoint file path the method returns. -/
def saveCheckpoint (fs : Fs) (outputsDir : String) (b : Blackboard)
    (state : PipelineState) (timestamp : String) : Fs × String :=
  (applyOps fs (saveCheckpointOps outputsDir b state timestamp),
   checkpointFilePath outputsDir (safeTitleSave b.inputs.target_title)
     state.nameLower timestamp)

/-- Read a checkpoint file from the file system. -/
def fsRead (fs : Fs) (path : String) : Option CheckpointData :=
  (fs.files.find? fun f => f.1 = path).map fun f => f.2

/-- `_load_checkpoint`: read the file and reconstruct the blackboard,
raising `OrchestrationError` (modelled as `Except.error`) when the file is
missing or unreadable. -/
def loadCheckpoint (fs : Fs) (path : String) : Except String Blackboard :=
  match fsRead fs path with
  | none => .error "Failed to load checkpoint"
  | some d => .ok (loadCheckpointData d)

/-- `_find_latest_checkpoint`: `None` when the checkpoints directory does not
exist; otherwise the `{safe_title}-latest.json` path when that file exists. -/
def findLatestCheckpoint (fs : Fs) (outputsDir title : String) : Option String :=
  if !fs.dirs.contains (checkpointsDirOf outputsDir) then none
  else
    let safe_title := safeTitleFind title
    let latest := latestFilePath outputsDir safe_title
    if fs.files.any (fun f => f.1 = latest) then some latest else none

/-! ## Resuming with a job-description override (`run`, lines 255-319) -/

/-- Python `str.upper()`, character-wise. -/
def pyUpper (s : String) : String := String.mk (s.toList.map Char.toUpper)

/-- `PipelineState[name]`: enum lookup by member name, `none` on `KeyError`. -/
def stateNameOf? (s : String) : Option PipelineState :=
  if s = "INIT" then some .INIT
  else if s = "PREPROCESSING" then some .PREPROCESSING
  else if s = "JD_ANALYSIS" then some .JD_ANALYSIS
  else if s = "EVIDENCE_MAPPING" then some .EVIDENCE_MAPPING
  else if s = "WRITING" then some .WRITING
  else if s = "AUDITING" then some .AUDITING
  else if s = "REVISION" then some .REVISION
  else if s = "COMPLETE" then some .COMPLETE
  else if s = "FAILED" then some .FAILED
  else none

/-- The `step_to_state` fallback map of `run` (lines 295-310), including the
backward-compatibility entries for old `_complete`-suffixed step names. -/
def stepToStateMap : List (String × PipelineState) := [
  ("init", .INIT), ("preprocessing", .PREPROCESSING),
  ("jd_analysis", .JD_ANALYSIS), ("evidence_mapping", .EVIDENCE_MAPPING),
  ("writing", .WRITING), ("auditing", .AUDITING), ("revision", .REVISION),
  ("jd_analysis_complete", .JD_ANALYSIS),
  ("evidence_mapping_complete", .EVIDENCE_MAPPING),
  ("writing_complete", .WRITING), ("auditing_complete", .AUDITING)]

/-- Determining the resume state from `blackboard.current_step` (lines
289-319): try `PipelineState[current_step.upper()]`, fall back to the
`step_to_state` map on `current_step.lower()`, defaulting to `INIT`. -/
def stateFromStep (step : String) : PipelineState :=
  match stateNameOf? (pyUpper step) with
  | some s => s
  | none =>
    ((stepToStateMap.find? fun kv => kv.1 = pyLower step).map fun kv => kv.2).getD .INIT

/-- The job-description-override branch of `run` (lines 259-287), applied to
a blackboard freshly loaded from a checkpoint.  `if job_description_override:`
is Python truthiness, so `None` and the empty string both leave the blackboard
unchanged.  When the override applies and the checkpoint's step is past
`jd_analysis`, the step is reset to `jd_analysis` and every JD-derived output
is cleared. -/
def applyJdOverride (b : Blackboard) (jd : Option String) : Blackboard :=
  match jd with
  | none => b
  | some jdText =>
    if jdText = "" then b
    else
      let b := { b with inputs := { b.inputs with job_description := jdText } }
      if b.current_step ≠ "init" ∧ b.current_step ≠ "preprocessing" ∧
          b.current_step ≠ "jd_analysis" then
        { b with
          current_step := "jd_analysis",
          role_profile := none,
          requirements := [],
          evidence_map := [],
          gap_resolutions := [],
          selected_evidence_ids := [],
          resume_draft := none,
          claim_index := [],
          ats_report := none,
          audit_report := none }
      else b

/-! ## Cache subsystem (`utils/cache.py`)

`LLMResultCache.compute_hash` serializes its argument tuple with
`json.dumps(args, sort_keys=True, default=str)` and hashes the UTF-8 bytes of
the resulting string with SHA-256.  Both steps are modelled executably: a
Python-value type with the `json.dumps` canonical serialization, and a full
SHA-256 implementation over byte lists. -/

/-- A JSON-serializable Python value, the type of cache-key inputs and cached
payloads (`float` inputs are not used by any cache call site and are
omitted). -/
inductive PyVal where
  | null
  | bool (b : Bool)
  | int (n : Int)
  | str (s : String)
  | list (xs : List PyVal)
  | dict (kvs : List (String × PyVal))

/-- JSON string escaping as performed by `json.dumps` with the default
`ensure_ascii=True`: the two mandatory escapes, the short control escapes,
and `\uXXXX` for other control characters and all non-ASCII code points
(code points above `0xFFFF` become surrogate pairs). -/
def jsonEscapeChar (c : Char) : List Char :=
  if c = '"' then ['\\', '"']
  else if c = '\\' then ['\\', '\\']
  else if c = '\n' then ['\\', 'n']
  else if c = '\t' then ['\\', 't']
  else if c = '\x0d' then ['\\', 'r']
  else if c = '\x08' then ['\\', 'b']
  else if c = '\x0c' then ['\\', 'f']
  else if c.toNat < 0x20 ∨ c.toNat > 0x7e then
    let hex := fun (n : Nat) =>
      "0123456789abcdef".toList.getD (n % 16) '0'
    let u4 := fun (n : Nat) =>
      ['\\', 'u', hex (n / 4096), hex (n / 256), hex (n / 16), hex n]
    if c.toNat < 0x10000 then u4 c.toNat
    else
      let v := c.toNat - 0x10000
      u4 (0xd800 + v / 1024) ++ u4 (0xdc00 + v % 1024)
  else [c]

/-- A JSON string literal as rendered by `json.dumps`. -/
def jsonQuote (s : String) : String :=
  String.mk ('"' :: s.toList.flatMap jsonEscapeChar ++ ['"'])

/-- The key order used by `sort_keys=True`: Python `str` comparison, i.e.
the lexicographic order on code points, provided by `LinearOrder String`. -/
def sortItemsByKey (kvs : List (String × String)) : List (String × String) :=
  List.insertionSort (fun p q => p.1 ≤ q.1) kvs

mutual

/-- `json.dumps(v, sort_keys=True)` with the default separators `", "` and
`": "`: the canonical serialization used by `compute_hash`.  Dictionary items
are rendered and then ordered by key; list elements keep their order. -/
def jsonDumpsVal : PyVal → String
  | .null => "null"
  | .bool b => if b then "true" else "false"
  | .int n => toString n
  | .str s => jsonQuote s
  | .list xs => "[" ++ String.intercalate ", " (jsonDumpsList xs) ++ "]"
  | .dict kvs =>
    "\x7b" ++
      String.intercalate ", "
        ((sortItemsByKey (jsonDumpsItems kvs)).map fun kv =>
          jsonQuote kv.1 ++ ": " ++ kv.2) ++ "\x7d"

/-- Render the elements of a JSON array in order. -/
def jsonDumpsList : List PyVal → List String
  | [] => []
  | x :: xs => jsonDumpsVal x :: jsonDumpsList xs

/-- Render dictionary items as (raw key, rendered value) pairs, in the
dictionary's insertion order (sorted afterwards by `sort_keys=True`). -/
def jsonDumpsItems : List (String × PyVal) → List (String × String)
  | [] => []
  | (k, v) :: kvs => (k, jsonDumpsVal v) :: jsonDumpsItems kvs

end

/-- UTF-8 encoding of one code point (as produced by Python
`str.encode()`). -/
def utf8EncodeCp (n : Nat) : List Nat :=
  if n < 0x80 then [n]
  else if n < 0x800 then [0xc0 ||| (n >>> 6), 0x80 ||| (n &&& 0x3f)]
  else if n < 0x10000 then
    [0xe0 ||| (n >>> 12), 0x80 ||| ((n >>> 6) &&& 0x3f), 0x80 ||| (n &&& 0x3f)]
  else
    [0xf0 ||| (n >>> 18), 0x80 ||| ((n >>> 12) &&& 0x3f),
     0x80 ||| ((n >>> 6) &&& 0x3f), 0x80 ||| (n &&& 0x3f)]

/-- UTF-8 bytes of a string (Python `str.encode()`). -/
def utf8Bytes (s : String) : List Nat :=
  s.toList.flatMap fun c => utf8EncodeCp c.toNat

/-! ### SHA-256 (`hashlib.sha256`), over byte lists, words as `Nat mod 2^32` -/

/-- Truncate to a 32-bit word. -/
def w32 (x : Nat) : Nat := x % 4294967296

/-- 32-bit rotate right. -/
def rotr32 (n x : Nat) : Nat := w32 ((x >>> n) ||| (x <<< (32 - n)))

/-- The SHA-256 `Ch` function. -/
def shaCh (x y z : Nat) : Nat := (x &&& y) ^^^ ((x ^^^ 4294967295) &&& z)

/-- The SHA-256 `Maj` function. -/
def shaMaj (x y z : Nat) : Nat := (x &&& y) ^^^ (x &&& z) ^^^ (y &&& z)

/-- The SHA-256 `Σ0` function. -/
def sigB0 (x : Nat) : Nat := rotr32 2 x ^^^ rotr32 13 x ^^^ rotr32 22 x

/-- The SHA-256 `Σ1` function. -/
def sigB1 (x : Nat) : Nat := rotr32 6 x ^^^ rotr32 11 x ^^^ rotr32 25 x

/-- The SHA-256 `σ0` function. -/
def sigS0 (x : Nat) : Nat := rotr32 7 x ^^^ rotr32 18 x ^^^ (x >>> 3)

/-- The SHA-256 `σ1` function. -/
def sigS1 (x : Nat) : Nat := rotr32 17 x ^^^ rotr32 19 x ^^^ (x >>> 10)

/-- The SHA-256 round constants. -/
def sha256K : List Nat := [
  1116352408, 1899447441, 3049323471, 3921009573, 961987163,
  1508970993, 2453635748, 2870763221, 3624381080, 310598401,
  607225278, 1426881987, 1925078388, 2162078206, 2614888103,
  3248222580, 3835390401, 4022224774, 264347078, 604807628,
  770255983, 1249150122, 1555081692, 1996064986, 2554220882,
  2821834349, 2952996808, 3210313671, 3336571891, 3584528711,
  113926993, 338241895, 666307205, 773529912, 1294757372,
  1396182291, 1695183700, 1986661051, 2177026350, 2456956037,
  2730485921, 2820302411, 3259730800, 3345764771, 3516065817,
  3600352804, 4094571909, 275423344, 430227734, 506948616,
  659060556, 883997877, 958139571, 1322822218, 1537002063,
  1747873779, 1955562222, 2024104815, 2227730452, 2361852424,
  2428436474, 2756734187, 3204031479, 3329325298]

/-- The SHA-256 initial hash value. -/
def sha256H0 : List Nat := [
  1779033703, 3144134277, 1013904242, 2773480762,
  1359893119, 2600822924, 528734635, 1541459225]

/-- SHA-256 message padding: append `0x80`, zero bytes, and the 64-bit
big-endian bit length so the total length is a multiple of 64 bytes. -/
def sha256Pad (msg : List Nat) : List Nat :=
  let len := msg.length
  let zeros := (55 + 64 - len % 64) % 64
  msg ++ 0x80 :: List.replicate zeros 0 ++
    (List.range 8).map fun i => (8 * len) >>> (8 * (7 - i)) % 256

/-- Group bytes into big-endian 32-bit words. -/
def bytesToWords : List Nat → List Nat
  | b0 :: b1 :: b2 :: b3 :: rest =>
    (((b0 * 256 + b1) * 256 + b2) * 256 + b3) :: bytesToWords rest
  | _ => []

/-- Extend the 16 message words to the 64-entry message schedule. -/
def sha256Extend : Nat → List Nat → List Nat
  | 0, ws => ws
  | n + 1, ws =>
    let i := ws.length
    let w := w32 (sigS1 (ws.getD (i - 2) 0) + ws.getD (i - 7) 0 +
      sigS0 (ws.getD (i - 15) 0) + ws.getD (i - 16) 0)
    sha256Extend n (ws ++ [w])

/-- One SHA-256 compression round on the 8-word working state. -/
def sha256Round (st : List Nat) (kw : Nat × Nat) : List Nat :=
  match st with
  | [a, b, c, d, e, f, g, h] =>
    let t1 := w32 (h + sigB1 e + shaCh e f g + kw.1 + kw.2)
    let t2 := w32 (sigB0 a + shaMaj a b c)
    [w32 (t1 + t2), a, b, c, w32 (d + t1), e, f, g]
  | other => other

/-- Process one 64-byte block: run 64 rounds and add the result into the
running hash. -/
def sha256Block (h : List Nat) (block : List Nat) : List Nat :=
  let ws := sha256Extend 48 (bytesToWords block)
  let st := (sha256K.zip ws).foldl sha256Round h
  List.zipWith (fun x y => w32 (x + y)) h st

/-- Take the next `n` 64-byte blocks. -/
def sha256BlocksN : Nat → List Nat → List (List Nat)
  | 0, _ => []
  | n + 1, l => l.take 64 :: sha256BlocksN n (l.drop 64)

/-- Split a padded message (whose length is a positive multiple of 64) into
its 64-byte blocks. -/
def sha256Blocks (l : List Nat) : List (List Nat) :=
  sha256BlocksN (l.length / 64) l

/-- One hex digit. -/
def hexDigit (n : Nat) : Char := "0123456789abcdef".toList.getD (n % 16) '0'

/-- A 32-bit word as 8 lowercase hex characters. -/
def wordToHex (w : Nat) : List Char :=
  (List.range 8).map fun i => hexDigit (w >>> (4 * (7 - i)))

/-- `hashlib.sha256(bytes).hexdigest()`. -/
def sha256hex (msg : List Nat) : String :=
  String.mk (((sha256Blocks (sha256Pad msg)).foldl sha256Block sha256H0).flatMap
    wordToHex)

/-- `LLMResultCache.compute_hash(*args)`:
`hashlib.sha256(json.dumps(args, sort_keys=True, default=str).encode())
.hexdigest()`.  The Python argument tuple serializes as a JSON array. -/
def compute_hash (args : List PyVal) : String :=
  sha256hex (utf8Bytes (jsonDumpsVal (.list args)))

/-! ### `FileCacheBackend` and `LLMResultCache` -/

/-- A cache file's JSON content, as written by `FileCacheBackend.set`:
`{hash, namespace, result, cached_at, optional expires_at}`.  (`namespace` is
a reserved word in Lean and is shortened to `ns`.)  Timestamps are exact
numbers of seconds (`datetime` arithmetic on reals). -/
structure CacheEntry where
  hash : String
  ns : String
  result : PyVal
  cached_at : Rat
  expires_at : Option Rat := none

/-- The cache directory: a map from file path to cache entry content. -/
structure CacheFs where
  files : List (String × CacheEntry) := []

/-- `FileCacheBackend._get_cache_path`:
`{cache_dir}/{namespace}-{key[:16]}.json`. -/
def cacheFilePath (cacheDir key ns : String) : String :=
  cacheDir ++ "/" ++ ns ++ "-" ++ (key.take 16) ++ ".json"

/-- `FileCacheBackend.set`: write the entry file.  `if ttl_seconds:` is Python
truthiness, so a `ttl_seconds` of `None` or `0` stores no expiry; otherwise
`expires_at = now + ttl_seconds`. -/
def fileCacheSet (fs : CacheFs) (cacheDir : String) (now : Rat)
    (key ns : String) (value : PyVal) (ttl_seconds : Option Int) : CacheFs :=
  let path := cacheFilePath cacheDir key ns
  let entry : CacheEntry :=
    { hash := key, ns := ns, result := value, cached_at := now,
      expires_at := match ttl_seconds with
        | some t => if t ≠ 0 then some (now + t) else none
        | none => none }
  { files := (path, entry) :: fs.files.filter fun f => f.1 ≠ path }

/-- `FileCacheBackend.get`: `None` when the file is missing; `None` when the
stored `hash` differs from the requested key (hash-truncation sanity check);
`None` with the file deleted when the entry carries an `expires_at` in the
past; otherwise the stored `result`. -/
def fileCacheGet (fs : CacheFs) (cacheDir : String) (now : Rat)
    (key ns : String) : Option PyVal × CacheFs :=
  let path := cacheFilePath cacheDir key ns
  match fs.files.find? (fun f => f.1 = path) with
  | none => (none, fs)
  | some (_, entry) =>
    if entry.hash ≠ key then (none, fs)
    else match entry.expires_at with
      | some expires =>
        if now > expires then
          (none, { files := fs.files.filter fun f => f.1 ≠ path })
        else (some entry.result, fs)
      | none => (some entry.result, fs)

/-- `LLMResultCache.set(agent_name, result, *cache_inputs, ttl_seconds)`:
hash the inputs and store under the agent's namespace. -/
def llmCacheSet (fs : CacheFs) (cacheDir : String) (now : Rat)
    (agent_name : String) (result : PyVal) (cache_inputs : List PyVal)
    (ttl_seconds : Option Int) : CacheFs :=
  fileCacheSet fs cacheDir now (compute_hash cache_inputs) agent_name result
    ttl_seconds

/-- `LLMResultCache.get(agent_name, *cache_inputs)`: hash the inputs and look
up the agent's namespace. -/
def llmCacheGet (fs : CacheFs) (cacheDir : String) (now : Rat)
    (agent_name : String) (cache_inputs : List PyVal) : Option PyVal × CacheFs :=
  fileCacheGet fs cacheDir now (compute_hash cache_inputs) agent_name

/-- Python `sorted` on a list of strings: a stable sort by the code-point
lexicographic order (the canonicalisation the agents' `get_cache_inputs`
apply to identifier lists before hashing). -/
def sortedStrings (l : List String) : List String :=
  List.insertionSort (fun a b => a ≤ b) l

/-! ## JSON repair (`agents/base.py`: `_repair_json`,
`_parse_json_with_repair`)

The regex rewrites of `_repair_json` are transcribed as character-list
scanners.  Each scanner replicates `re.sub` semantics for its fixed pattern:
scan left to right, replace the leftmost match, continue scanning after the
replacement text.  Scanners that continue after a replacement take an explicit
fuel argument so that recursion is structural (every step consumes at least
one input character, so fuel equal to the input length always suffices; the
wrappers pass exactly that). -/

/-- Python whitespace for `str.strip` and the regex class `\s`. -/
def pyIsSpace (c : Char) : Bool :=
  c = ' ' || c = '\t' || c = '\n' || c = '\x0d' || c = '\x0b' || c = '\x0c'

/-- Python `str.strip()` over characters. -/
def pyStripChars (l : List Char) : List Char :=
  ((l.dropWhile pyIsSpace).reverse.dropWhile pyIsSpace).reverse

/-- Python `str.rstrip()` over characters. -/
def pyRstripChars (l : List Char) : List Char :=
  (l.reverse.dropWhile pyIsSpace).reverse

/-- The remainder of `l` after the literal prefix `p`, when `p` is a prefix. -/
def dropPrefix? : List Char → List Char → Option (List Char)
  | l, [] => some l
  | [], _ :: _ => none
  | c :: cs, p :: ps => if c = p then dropPrefix? cs ps else none

/-- Python `str.rfind('"')`: index of the last double quote, if any. -/
def rfindQuote (l : List Char) : Option Nat :=
  match l.reverse.findIdx? (fun c => c = '"') with
  | some k => some (l.length - 1 - k)
  | none => none

/-- The literal text `"key":` for a fixed key. -/
def keyColonLit (key : List Char) : List Char := '"' :: key ++ ['"', ':']

/-- `re.sub(rf'"{key}":\s*$', rf'"{key}": REPL', l)`: a fixed key whose value
was truncated at end of input.  The match extends to the end of the input, so
at most one replacement happens. -/
def subKeyWsEndF (key repl : List Char) : Nat → List Char → List Char
  | 0, l => l
  | _, [] => []
  | fuel + 1, c :: cs =>
    match dropPrefix? (c :: cs) (keyColonLit key) with
    | some rest =>
      if rest.all pyIsSpace then keyColonLit key ++ ' ' :: repl
      else c :: subKeyWsEndF key repl fuel cs
    | none => c :: subKeyWsEndF key repl fuel cs

/-- Wrapper running `subKeyWsEndF` with sufficient fuel. -/
def subKeyWsEnd (key repl l : List Char) : List Char :=
  subKeyWsEndF key repl l.length l

/-- Match `"key":\s*}` at the head of `l`; returns the input remaining after
the closing brace. -/
def matchKeyWsBrace (key l : List Char) : Option (List Char) :=
  match dropPrefix? l (keyColonLit key) with
  | some rest =>
    match rest.dropWhile pyIsSpace with
    | '\x7d' :: r2 => some r2
    | _ => none
  | none => none

/-- `re.sub(r'"key":\s*}', rf'"{key}": REPL}', l)` for a fixed key. -/
def subKeyWsBraceF (key repl : List Char) : Nat → List Char → List Char
  | 0, l => l
  | _, [] => []
  | fuel + 1, c :: cs =>
    match matchKeyWsBrace key (c :: cs) with
    | some rest =>
      (keyColonLit key ++ ' ' :: repl ++ ['\x7d']) ++ subKeyWsBraceF key repl fuel rest
    | none => c :: subKeyWsBraceF key repl fuel cs

/-- Wrapper running `subKeyWsBraceF` with sufficient fuel. -/
def subKeyWsBrace (key repl l : List Char) : List Char :=
  subKeyWsBraceF key repl l.length l

/-- Match `"key":\s*\n\s*}` at the head of `l` (a whitespace run containing at
least one newline, then a closing brace); returns the input remaining after
the brace. -/
def matchKeyWsNlBrace (key l : List Char) : Option (List Char) :=
  match dropPrefix? l (keyColonLit key) with
  | some rest =>
    if (rest.takeWhile pyIsSpace).contains '\n' then
      match rest.dropWhile pyIsSpace with
      | '\x7d' :: r2 => some r2
      | _ => none
    else none
  | none => none

/-- `re.sub(r'"key":\s*\n\s*}', rf'"{key}": REPL\n}', l)` for a fixed key. -/
def subKeyWsNlBraceF (key repl : List Char) : Nat → List Char → List Char
  | 0, l => l
  | _, [] => []
  | fuel + 1, c :: cs =>
    match matchKeyWsNlBrace key (c :: cs) with
    | some rest =>
      (keyColonLit key ++ ' ' :: repl ++ ['\n', '\x7d']) ++
        subKeyWsNlBraceF key repl fuel rest
    | none => c :: subKeyWsNlBraceF key repl fuel cs

/-- Wrapper running `subKeyWsNlBraceF` with sufficient fuel. -/
def subKeyWsNlBrace (key repl l : List Char) : List Char :=
  subKeyWsNlBraceF key repl l.length l

/-- Match the group pattern `"([^"]+)":` at the head of `l`: an opening
quote, one or more non-quote characters (the greedy `[^"]+` stops exactly at
the next quote), the closing quote and a colon.  Returns the captured key and
the remaining input. -/
def matchAnyKeyColon (l : List Char) : Option (List Char × List Char) :=
  match l with
  | '"' :: cs =>
    match cs.span (fun c => c ≠ '"') with
    | (key, '"' :: ':' :: rest) => if key.isEmpty then none else some (key, rest)
    | _ => none
  | _ => none

/-- `re.sub(r'"([^"]+)":\s*$', r'"\1": null', l)`. -/
def subAnyKeyWsEndF (repl : List Char) : Nat → List Char → List Char
  | 0, l => l
  | _, [] => []
  | fuel + 1, c :: cs =>
    match matchAnyKeyColon (c :: cs) with
    | some (key, rest) =>
      if rest.all pyIsSpace then keyColonLit key ++ ' ' :: repl
      else c :: subAnyKeyWsEndF repl fuel cs
    | none => c :: subAnyKeyWsEndF repl fuel cs

/-- Wrapper running `subAnyKeyWsEndF` with sufficient fuel. -/
def subAnyKeyWsEnd (repl l : List Char) : List Char :=
  subAnyKeyWsEndF repl l.length l

/-- `re.sub(r'"([^"]+)":\s*}', r'"\1": null}', l)`. -/
def subAnyKeyWsBraceF (repl : List Char) : Nat → List Char → List Char
  | 0, l => l
  | _, [] => []
  | fuel + 1, c :: cs =>
    match matchAnyKeyColon (c :: cs) with
    | some (key, rest) =>
      match rest.dropWhile pyIsSpace with
      | '\x7d' :: r2 =>
        (keyColonLit key ++ ' ' :: repl ++ ['\x7d']) ++ subAnyKeyWsBraceF repl fuel r2
      | _ => c :: subAnyKeyWsBraceF repl fuel cs
    | none => c :: subAnyKeyWsBraceF repl fuel cs

/-- Wrapper running `subAnyKeyWsBraceF` with sufficient fuel. -/
def subAnyKeyWsBrace (repl l : List Char) : List Char :=
  subAnyKeyWsBraceF repl l.length l

/-- `re.sub(r'"([^"]+)":\s*\n\s*}', r'"\1": null\n}', l)`. -/
def subAnyKeyWsNlBraceF (repl : List Char) : Nat → List Char → List Char
  | 0, l => l
  | _, [] => []
  | fuel + 1, c :: cs =>
    match matchAnyKeyColon (c :: cs) with
    | some (key, rest) =>
      if (rest.takeWhile pyIsSpace).contains '\n' then
        match rest.dropWhile pyIsSpace with
        | '\x7d' :: r2 =>
          (keyColonLit key ++ ' ' :: repl ++ ['\n', '\x7d']) ++
            subAnyKeyWsNlBraceF repl fuel r2
        | _ => c :: subAnyKeyWsNlBraceF repl fuel cs
      else c :: subAnyKeyWsNlBraceF repl fuel cs
    | none => c :: subAnyKeyWsNlBraceF repl fuel cs

/-- Wrapper running `subAnyKeyWsNlBraceF` with sufficient fuel. -/
def subAnyKeyWsNlBrace (repl l : List Char) : List Char :=
  subAnyKeyWsNlBraceF repl l.length l

/-- Match `,\s*C` at the head of `l` for a fixed closing delimiter `C`;
returns the input remaining after the delimiter. -/
def matchCommaWsClose (close : Char) (l : List Char) : Option (List Char) :=
  match l with
  | ',' :: rest =>
    match rest.dropWhile pyIsSpace with
    | c :: r2 => if c = close then some r2 else none
    | [] => none
  | _ => none

/-- `re.sub(r',\s*C', 'C', l)`: strip a trailing separator before a closing
delimiter. -/
def subCommaWsCloseF (close : Char) : Nat → List Char → List Char
  | 0, l => l
  | _, [] => []
  | fuel + 1, c :: cs =>
    match matchCommaWsClose close (c :: cs) with
    | some rest => close :: subCommaWsCloseF close fuel rest
    | none => c :: subCommaWsCloseF close fuel cs

/-- Wrapper running `subCommaWsCloseF` with sufficient fuel. -/
def subCommaWsClose (close : Char) (l : List Char) : List Char :=
  subCommaWsCloseF close l.length l

/-- `re.sub(r',\s*$', '', l)`: only the last comma followed by nothing but
whitespace can match, so this removes that comma and the trailing
whitespace. -/
def subCommaWsEnd (l : List Char) : List Char :=
  match l.reverse.dropWhile pyIsSpace with
  | ',' :: rest => rest.reverse
  | _ => l

/-- The array-typed keys of the truncated-key heuristic
(`array_keys` in `_repair_json`). -/
def arrayKeys : List String :=
  ["supported_keywords", "missing_keywords", "format_warnings", "items", "list"]

/-- `BaseAgent._repair_json` over characters: strip; count open delimiters and
quotes before any repair; close an unterminated string (odd quote count or a
trailing single quote); substitute empty collections for truncated
array-typed keys and `null` for other truncated keys; strip trailing
separators before closing delimiters; append the missing closing delimiters
(brackets then braces, removing a trailing comma first); strip any trailing
separators the closing step exposed. -/
def repairJsonChars (json_text : List Char) : List Char :=
  let repaired := pyStripChars json_text
  let open_braces : Int := (repaired.count '\x7b' : Int) - repaired.count '\x7d'
  let open_brackets : Int := (repaired.count '[' : Int) - repaired.count ']'
  let quote_count := repaired.count '"'
  let ends_with_single_quote := (pyRstripChars repaired).getLast? = some '\''
  let repaired :=
    if quote_count % 2 = 1 ∨ ends_with_single_quote = true then
      match rfindQuote repaired with
      | some last_quote_pos =>
        let after_quote := pyStripChars (repaired.drop (last_quote_pos + 1))
        if after_quote.isEmpty ∨
            ¬([',', ':', '\x7d', ']', '\n'].contains (after_quote.headD ' ') = true) then
          if ends_with_single_quote then (pyRstripChars repaired).dropLast ++ ['"']
          else repaired ++ ['"']
        else repaired
      | none =>
        if ends_with_single_quote then (pyRstripChars repaired).dropLast ++ ['"']
        else repaired
    else repaired
  let emptyArr : List Char := ['[', ']']
  let repaired := arrayKeys.foldl (fun r key =>
    let k := key.toList
    let r := subKeyWsEnd k emptyArr r
    let r := subKeyWsBrace k emptyArr r
    subKeyWsNlBrace k emptyArr r) repaired
  let nullRepl : List Char := "null".toList
  let repaired := subAnyKeyWsEnd nullRepl repaired
  let repaired := subAnyKeyWsBrace nullRepl repaired
  let repaired := subAnyKeyWsNlBrace nullRepl repaired
  let repaired := subCommaWsClose ']' repaired
  let repaired := subCommaWsClose '\x7d' repaired
  let repaired :=
    if open_brackets > 0 then
      subCommaWsEnd repaired ++ List.replicate open_brackets.toNat ']'
    else repaired
  let repaired :=
    if open_braces > 0 then
      subCommaWsEnd repaired ++ List.replicate open_braces.toNat '\x7d'
    else repaired
  let repaired := subCommaWsClose ']' repaired
  subCommaWsClose '\x7d' repaired

/-- `BaseAgent._repair_json` on strings. -/
def repairJson (s : String) : String := String.mk (repairJsonChars s.toList)

/-! ### A model of `json.loads` on the grammar the stage boundary exchanges
(objects, arrays, strings with the standard short escapes, integers, `true`,
`false`, `null`) -/

/-- A parsed JSON value. -/
inductive Json where
  | null
  | bool (b : Bool)
  | num (n : Int)
  | str (s : String)
  | arr (xs : List Json)
  | obj (kvs : List (String × Json))

/-- Decode one string-literal escape character. -/
def jsonUnescape (c : Char) : Option Char :=
  if c = '"' then some '"'
  else if c = '\\' then some '\\'
  else if c = '/' then some '/'
  else if c = 'n' then some '\n'
  else if c = 't' then some '\t'
  else if c = 'r' then some '\x0d'
  else if c = 'b' then some '\x08'
  else if c = 'f' then some '\x0c'
  else none

/-- Parse the body of a string literal after the opening quote; returns the
content and the input after the closing quote. -/
def parseStringBody : Nat → List Char → Option (List Char × List Char)
  | 0, _ => none
  | _, [] => none
  | fuel + 1, c :: cs =>
    if c = '"' then some ([], cs)
    else if c = '\\' then
      match cs with
      | e :: cs2 =>
        match jsonUnescape e with
        | some d =>
          match parseStringBody fuel cs2 with
          | some (body, rest) => some (d :: body, rest)
          | none => none
        | none => none
      | [] => none
    else
      match parseStringBody fuel cs with
      | some (body, rest) => some (c :: body, rest)
      | none => none

/-- Parse a run of decimal digits into a natural number. -/
def parseDigits : List Char → Option (Nat × List Char)
  | l =>
    let digits := l.takeWhile (fun c => c.isDigit)
    if digits.isEmpty then none
    else some (digits.foldl (fun acc c => 10 * acc + (c.toNat - 48)) 0,
      l.dropWhile (fun c => c.isDigit))

mutual

/-- Parse one JSON value (leading whitespace allowed); returns the value and
the remaining input. -/
def parseVal : Nat → List Char → Option (Json × List Char)
  | 0, _ => none
  | fuel + 1, l =>
    match l.dropWhile pyIsSpace with
    | [] => none
    | c :: cs =>
      if c = '\x7b' then
        match cs.dropWhile pyIsSpace with
        | '\x7d' :: rest => some (.obj [], rest)
        | _ =>
          match parseObjItems fuel cs with
          | some (kvs, rest) => some (.obj kvs, rest)
          | none => none
      else if c = '[' then
        match cs.dropWhile pyIsSpace with
        | ']' :: rest => some (.arr [], rest)
        | _ =>
          match parseArrItems fuel cs with
          | some (xs, rest) => some (.arr xs, rest)
          | none => none
      else if c = '"' then
        match parseStringBody (cs.length + 1) cs with
        | some (body, rest) => some (.str (String.mk body), rest)
        | none => none
      else if c = '-' then
        match parseDigits cs with
        | some (n, rest) => some (.num (-(n : Int)), rest)
        | none => none
      else if c.isDigit then
        match parseDigits (c :: cs) with
        | some (n, rest) => some (.num (n : Int), rest)
        | none => none
      else
        match dropPrefix? (c :: cs) "true".toList with
        | some rest => some (.bool true, rest)
        | none =>
          match dropPrefix? (c :: cs) "false".toList with
          | some rest => some (.bool false, rest)
          | none =>
            match dropPrefix? (c :: cs) "null".toList with
            | some rest => some (.null, rest)
            | none => none

/-- Parse the comma-separated elements of a non-empty array, consuming the
closing bracket. -/
def parseArrItems : Nat → List Char → Option (List Json × List Char)
  | 0, _ => none
  | fuel + 1, l =>
    match parseVal fuel l with
    | some (v, rest) =>
      match rest.dropWhile pyIsSpace with
      | ',' :: rest2 =>
        match parseArrItems fuel rest2 with
        | some (vs, rest3) => some (v :: vs, rest3)
        | none => none
      | ']' :: rest2 => some ([v], rest2)
      | _ => none
    | none => none

/-- Parse the comma-separated members of a non-empty object, consuming the
closing brace. -/
def parseObjItems : Nat → List Char → Option (List (String × Json) × List Char)
  | 0, _ => none
  | fuel + 1, l =>
    match l.dropWhile pyIsSpace with
    | '"' :: cs =>
      match parseStringBody (cs.length + 1) cs with
      | some (key, rest) =>
        match rest.dropWhile pyIsSpace with
        | ':' :: rest2 =>
          match parseVal fuel rest2 with
          | some (v, rest3) =>
            match rest3.dropWhile pyIsSpace with
            | ',' :: rest4 =>
              match parseObjItems fuel rest4 with
              | some (kvs, rest5) => some ((String.mk key, v) :: kvs, rest5)
              | none => none
            | '\x7d' :: rest4 => some ([(String.mk key, v)], rest4)
            | _ => none
          | none => none
        | _ => none
      | none => none
    | _ => none

end

/-- `json.loads`: parse one value and require only whitespace to follow;
`none` models a raised `json.JSONDecodeError`. -/
def parseJson (s : String) : Option Json :=
  match parseVal (2 * s.length + 2) s.toList with
  | some (v, rest) => if (rest.dropWhile pyIsSpace).isEmpty then some v else none
  | none => none

/-- `BaseAgent._parse_json_with_repair`: parse as-is; on failure repair and
parse again; surface a `ValidationError` (modelled as `Except.error`) when the
repaired text still fails to parse. -/
def parseJsonWithRepair (json_text : String) : Except String Json :=
  match parseJson json_text with
  | some v => .ok v
  | none =>
    match parseJson (repairJson json_text) with
    | some v => .ok v
    | none => .error "Invalid JSON response"

/-! ## Proof infrastructure: a ranking function for the loop, and concrete
collaborator instances used by witnesses -/

/-- Rank of a pipeline state along the execution order, used while
`retry_count < max_retries`. -/
def stateRankBelow : PipelineState → Nat
  | .INIT => 6
  | .PREPROCESSING => 5
  | .JD_ANALYSIS => 4
  | .EVIDENCE_MAPPING => 3
  | .WRITING => 2
  | .AUDITING => 1
  | .REVISION => 0
  | .COMPLETE => 0
  | .FAILED => 0

/-- Rank of a pipeline state once `retry_count ≥ max_retries` (the next
failed audit is terminal, and a revision in flight still passes through
`WRITING` and `AUDITING`). -/
def stateRankAbove : PipelineState → Nat
  | .INIT => 6
  | .PREPROCESSING => 5
  | .JD_ANALYSIS => 4
  | .EVIDENCE_MAPPING => 3
  | .WRITING => 2
  | .AUDITING => 1
  | .REVISION => 3
  | .COMPLETE => 0
  | .FAILED => 0

/-- A ranking function for the pipeline loop when every audit fails: it
strictly decreases across every loop iteration, bounding the number of
iterations by `3 * max_retries + 7` from `INIT`. -/
def loopMeasure (s : PipelineState) (b : Blackboard) : Nat :=
  if b.retry_count < b.max_retries then
    3 * (b.max_retries - b.retry_count).toNat + stateRankBelow s
  else stateRankAbove s

/-- A concrete evidence card, used by witnesses. -/
def exampleCard : EvidenceCard :=
  { id := "c1", project := "p", company := "co", timeframe := "2020-2024",
    role := "eng", raw_text := "text" }

/-- A concrete initial blackboard, used by witnesses. -/
def exampleBoard : Blackboard :=
  { inputs := { job_description := "jd", target_title := "Staff Engineer",
                template_path := "t.md" },
    evidence_cards := [exampleCard] }

/-- A concrete collaborator family whose audits always fail: every stage
succeeds and fills exactly the outputs the state validator requires, and the
auditor always produces a failed audit report. -/
def stubFailingAuditAgents : AgentExec := fun s b =>
  match s with
  | .JD_ANALYSIS =>
    .ok { b with role_profile := some { inferred_level := "senior" },
                 requirements := [{ id := "r1", text := "req" }] }
  | .EVIDENCE_MAPPING =>
    .ok { b with
      evidence_map :=
        [{ requirement_id := "r1", evidence_card_ids := ["c1"], confidence := .high }],
      selected_evidence_ids := ["c1"] }
  | .WRITING =>
    .ok { b with resume_draft := some { sections := [] },
                 claim_index :=
                   [{ bullet_id := "b1", bullet_text := "t", evidence_card_ids := ["c1"] }] }
  | .AUDITING => .ok { b with audit_report := some { passed := false } }
  | _ => .ok b

/-- A concrete collaborator family whose every stage raises. -/
def throwingAgents : AgentExec := fun _ _ => .error "boom"

/-- Evaluating the transition scan from the `AUDITING` state: the three
audit transitions are the only ones whose source is `AUDITING`, and their
guards are scanned in source order. -/
lemma getNextState_AUDITING (b : Blackboard) :
    getNextState .AUDITING b =
      match b.audit_report with
      | none => none
      | some r =>
        if r.passed then some .COMPLETE
        else if b.retry_count < b.max_retries then some .REVISION
        else some .FAILED := by
  cases h : b.audit_report with
  | none => simp [getNextState, TRANSITIONS, List.findSome?, h]
  | some r =>
    cases hp : r.passed with
    | true => simp [getNextState, TRANSITIONS, List.findSome?, h, hp]
    | false =>
      by_cases hr : b.retry_count < b.max_retries
      · simp [getNextState, TRANSITIONS, List.findSome?, h, hp, hr]
      · simp [getNextState, TRANSITIONS, List.findSome?, h, hp, hr, le_of_not_lt hr]

/-- **C1.** For every blackboard in the `AUDITING` state, with no audit-failure
resolver supplied, `_get_next_state` chooses: `AUDITING → COMPLETE` iff the
audit report is present and passed; `AUDITING → REVISION` iff it is present,
not passed, and `retry_count < max_retries`; `AUDITING → FAILED` iff it is
present, not passed, and `retry_count ≥ max_retries`. -/
theorem auditing_transition_characterisation (b : Blackboard) :
    (getNextState .AUDITING b = some .COMPLETE ↔
      ∃ r, b.audit_report = some r ∧ r.passed = true) ∧
    (getNextState .AUDITING b = some .REVISION ↔
      ∃ r, b.audit_report = some r ∧ r.passed = false ∧
        b.retry_count < b.max_retries) ∧
    (getNextState .AUDITING b = some .FAILED ↔
      ∃ r, b.audit_report = some r ∧ r.passed = false ∧
        b.retry_count ≥ b.max_retries) := by
  rw [getNextState_AUDITING]
  cases h : b.audit_report with
  | none => simp
  | some r =>
    cases hp : r.passed with
    | true => simp [hp, not_le_of_lt, fun hr => not_le_of_lt (α := Int) hr]
    | false =>
      by_cases hr : b.retry_count < b.max_retries
      · simp [hp, hr, not_le_of_lt hr]
      · simp [hp, hr, le_of_not_lt hr]

/-- The unconditional transition out of `INIT`. -/
lemma getNextState_INIT (b : Blackboard) :
    getNextState .INIT b = some .PREPROCESSING := by
  simp [getNextState, TRANSITIONS, List.findSome?]

/-- The unconditional transition out of `PREPROCESSING`. -/
lemma getNextState_PREPROCESSING (b : Blackboard) :
    getNextState .PREPROCESSING b = some .JD_ANALYSIS := by
  simp [getNextState, TRANSITIONS, List.findSome?]

/-- The unconditional transition out of `JD_ANALYSIS`. -/
lemma getNextState_JD_ANALYSIS (b : Blackboard) :
    getNextState .JD_ANALYSIS b = some .EVIDENCE_MAPPING := by
  simp [getNextState, TRANSITIONS, List.findSome?]

/-- The unconditional transition out of `EVIDENCE_MAPPING`. -/
lemma getNextState_EVIDENCE_MAPPING (b : Blackboard) :
    getNextState .EVIDENCE_MAPPING b = some .WRITING := by
  simp [getNextState, TRANSITIONS, List.findSome?]

/-- The unconditional transition out of `WRITING`. -/
lemma getNextState_WRITING (b : Blackboard) :
    getNextState .WRITING b = some .AUDITING := by
  simp [getNextState, TRANSITIONS, List.findSome?]

/-- The unconditional transition out of `REVISION`. -/
lemma getNextState_REVISION (b : Blackboard) :
    getNextState .REVISION b = some .WRITING := by
  simp [getNextState, TRANSITIONS, List.findSome?]

/-- `_prepare_revision` changes only the change log: the retry counter, the
retry limit and the audit report are untouched. -/
lemma prepareRevision_fields (b : Blackboard) :
    (prepareRevision b).retry_count = b.retry_count ∧
    (prepareRevision b).max_retries = b.max_retries ∧
    (prepareRevision b).audit_report = b.audit_report := by
  unfold prepareRevision
  cases h : b.audit_report with
  | none => simp [h]
  | some r =>
    by_cases hv : r.truth_violations.isEmpty <;> simp [h, hv]

/-- **C3.** Checkpoint save/load round trip: loading the checkpoint file
written by `_save_checkpoint` reconstructs a blackboard equal to the
original; the `_checkpoint_metadata` object is stripped before
reconstruction (the reconstructed blackboard is independent of it); and
`_save_checkpoint` performs its writes in order — the `-latest.json` pointer
write is the last operation, strictly after the full timestamped checkpoint
file write. -/
theorem checkpoint_roundtrip_and_latest_order :
    (∀ (fs : Fs) (outputsDir : String) (b : Blackboard) (state : PipelineState)
        (timestamp : String),
      loadCheckpoint (saveCheckpoint fs outputsDir b state timestamp).1
        (saveCheckpoint fs outputsDir b state timestamp).2 = .ok b) ∧
    (∀ d : CheckpointData,
      loadCheckpointData d = loadCheckpointData { d with checkpoint_metadata := none }) ∧
    (∀ (outputsDir : String) (b : Blackboard) (state : PipelineState)
        (timestamp : String),
      ∃ i j, i < j ∧
        (saveCheckpointOps outputsDir b state timestamp).get? i =
          some (.write (checkpointFilePath outputsDir
            (safeTitleSave b.inputs.target_title) state.nameLower timestamp)
            (buildCheckpointData b state timestamp)) ∧
        (saveCheckpointOps outputsDir b state timestamp).get? j =
          some (.write (latestFilePath outputsDir
            (safeTitleSave b.inputs.target_title))
            (buildCheckpointData b state timestamp)) ∧
        (saveCheckpointOps outputsDir b state timestamp).length = j + 1) := by
  refine ⟨?_, fun d => rfl, ?_⟩
  · intro fs outputsDir b state timestamp
    by_cases h : latestFilePath outputsDir (safeTitleSave b.inputs.target_title) =
        checkpointFilePath outputsDir (safeTitleSave b.inputs.target_title)
          state.nameLower timestamp
    · simp [saveCheckpoint, saveCheckpointOps, applyOps, applyOp, loadCheckpoint,
        fsRead, loadCheckpointData, buildCheckpointData, h]
    · have h' : checkpointFilePath outputsDir (safeTitleSave b.inputs.target_title)
          state.nameLower timestamp ≠
          latestFilePath outputsDir (safeTitleSave b.inputs.target_title) :=
        fun hh => h hh.symm
      simp [saveCheckpoint, saveCheckpointOps, applyOps, applyOp, loadCheckpoint,
        fsRead, loadCheckpointData, buildCheckpointData, h, h', List.find?]
  · intro outputsDir b state timestamp
    exact ⟨1, 2, by omega, rfl, rfl, rfl⟩

/-- No sanitised character is a space (a space is neither alphanumeric nor
`-`/`_`, so it maps to `-`). -/
lemma sanitizeChar_ne_space (c : Char) : sanitizeChar c ≠ ' ' := by
  unfold sanitizeChar
  split
  · next hc =>
    intro hEq
    subst hEq
    simp [pyIsAlnum, Char.isAlphanum, Char.isAlpha, Char.isUpper, Char.isLower,
      Char.isDigit] at hc
  · simp

/-- The trailing `.replace(" ", "-")` of both sanitisation sites is the
identity: the join has already replaced every space by a dash. -/
lemma safeTitle_eq_spec (title : String) : safeTitleSave title = safeTitleSpec title := by
  unfold safeTitleSave safeTitleSpec pyReplaceChar
  congr 1
  have : ∀ l : List Char,
      (((l.map sanitizeChar).take 50).map fun c => if c = ' ' then '-' else c) =
        List.map id ((l.map sanitizeChar).take 50) := by
    intro l
    apply List.map_congr_left
    intro x hx
    have hx' := List.mem_of_mem_take hx
    obtain ⟨c, _, rfl⟩ := List.mem_map.mp hx'
    simp [sanitizeChar_ne_space c]
  simpa using this (pyLower title).toList

/-- **C10.** `_save_checkpoint` and `_find_latest_checkpoint` sanitise the
title with the identical transformation — both equal the three-step
description (lowercase, non-alphanumeric characters other than `-`/`_`
replaced by `-`, truncation to 50 characters) — so immediately after
`_save_checkpoint(blackboard, state)`,
`_find_latest_checkpoint(blackboard.inputs.target_title)` returns exactly the
`-latest.json` path that save just wrote. -/
theorem latest_checkpoint_discoverable :
    (∀ title : String,
      safeTitleSave title = safeTitleFind title ∧
      safeTitleSave title = safeTitleSpec title) ∧
    (∀ (fs : Fs) (outputsDir : String) (b : Blackboard) (state : PipelineState)
        (timestamp : String),
      findLatestCheckpoint (saveCheckpoint fs outputsDir b state timestamp).1
          outputsDir b.inputs.target_title =
        some (latestFilePath outputsDir (safeTitleSave b.inputs.target_title))) := by
  constructor
  · exact fun title => ⟨rfl, safeTitle_eq_spec title⟩
  · intro fs outputsDir b state timestamp
    have hfind : safeTitleFind b.inputs.target_title = safeTitleSave b.inputs.target_title :=
      rfl
    by_cases h : checkpointsDirOf outputsDir ∈ fs.dirs <;>
      simp [findLatestCheckpoint, hfind, saveCheckpoint, saveCheckpointOps,
        applyOps, applyOp, h]

/-- **C6.** Resuming with a non-empty job-description override, when the
checkpoint's `current_step` is past `jd_analysis`, replaces the job
description, resets every JD-derived stage output
(role profile, requirements, evidence map, gap resolutions, selected
evidence, resume draft, claim index, ATS report, audit report) to its empty
value, and sets `current_step` to `jd_analysis`, which the resume-state
mapping sends back to the `JD_ANALYSIS` stage. -/
theorem jd_override_clears_downstream (b : Blackboard) (jd : String)
    (hjd : jd ≠ "")
    (h1 : b.current_step ≠ "init") (h2 : b.current_step ≠ "preprocessing")
    (h3 : b.current_step ≠ "jd_analysis") :
    (applyJdOverride b (some jd)).role_profile = none ∧
    (applyJdOverride b (some jd)).requirements = [] ∧
    (applyJdOverride b (some jd)).evidence_map = [] ∧
    (applyJdOverride b (some jd)).gap_resolutions = [] ∧
    (applyJdOverride b (some jd)).selected_evidence_ids = [] ∧
    (applyJdOverride b (some jd)).resume_draft = none ∧
    (applyJdOverride b (some jd)).claim_index = [] ∧
    (applyJdOverride b (some jd)).ats_report = none ∧
    (applyJdOverride b (some jd)).audit_report = none ∧
    (applyJdOverride b (some jd)).current_step = "jd_analysis" ∧
    (applyJdOverride b (some jd)).inputs.job_description = jd ∧
    stateFromStep (applyJdOverride b (some jd)).current_step = .JD_ANALYSIS := by
  have hover : applyJdOverride b (some jd) =
      { b with
        inputs := { b.inputs with job_description := jd },
        current_step := "jd_analysis",
        role_profile := none,
        requirements := [],
        evidence_map := [],
        gap_resolutions := [],
        selected_evidence_ids := [],
        resume_draft := none,
        claim_index := [],
        ats_report := none,
        audit_report := none } := by
    simp [applyJdOverride, hjd, h1, h2, h3]
  rw [hover]
  refine ⟨rfl, rfl, rfl, rfl, rfl, rfl, rfl, rfl, rfl, rfl, rfl, ?_⟩
  rfl

/-- Witness for C6: a concrete checkpoint at the `writing` step resumed with
the override `"new jd"`. -/
theorem jd_override_clears_downstream_witness :
    (applyJdOverride { exampleBoard with current_step := "writing" }
      (some "new jd")).role_profile = none ∧
    (applyJdOverride { exampleBoard with current_step := "writing" }
      (some "new jd")).audit_report = none ∧
    (applyJdOverride { exampleBoard with current_step := "writing" }
      (some "new jd")).current_step = "jd_analysis" ∧
    stateFromStep (applyJdOverride { exampleBoard with current_step := "writing" }
      (some "new jd")).current_step = .JD_ANALYSIS := by
  obtain ⟨ha, _, _, _, _, _, _, _, hb, hc, _, hd⟩ :=
    jd_override_clears_downstream { exampleBoard with current_step := "writing" }
      "new jd" (by decide) (by decide) (by decide) (by decide)
  exact ⟨ha, hb, hc, hd⟩

/-- **C9.** `_filter_relevant_evidence_cards` returns either the input list
unchanged or the order-preserving subsequence (a `filter`) of cards whose
searchable text contains some keyword; the result is always a sublist of the
input; and for non-empty input the result is never empty and always holds at
least 20% of the input cards (`5 * |result| ≥ |input|`). -/
theorem filter_evidence_cards_invariant (all_cards : List EvidenceCard)
    (jd_keywords : List String) :
    (filterRelevantEvidenceCards all_cards jd_keywords = all_cards ∨
      filterRelevantEvidenceCards all_cards jd_keywords =
        all_cards.filter fun card =>
          ((jd_keywords.filter fun kw => kw ≠ "").map pyLower).any fun kw =>
            strContains (cardSearchText card) kw) ∧
    (filterRelevantEvidenceCards all_cards jd_keywords).Sublist all_cards ∧
    (all_cards ≠ [] →
      filterRelevantEvidenceCards all_cards jd_keywords ≠ [] ∧
      all_cards.length ≤ 5 * (filterRelevantEvidenceCards all_cards jd_keywords).length) := by
  have heq : filterRelevantEvidenceCards all_cards jd_keywords =
      (if jd_keywords.isEmpty then all_cards
       else if ((jd_keywords.filter fun kw => kw ≠ "").map pyLower).isEmpty then all_cards
       else if all_cards.length = 0 then
         all_cards.filter fun card =>
           ((jd_keywords.filter fun kw => kw ≠ "").map pyLower).any fun kw =>
             strContains (cardSearchText card) kw
       else if 5 * (all_cards.filter fun card =>
           ((jd_keywords.filter fun kw => kw ≠ "").map pyLower).any fun kw =>
             strContains (cardSearchText card) kw).length < all_cards.length then
         all_cards
       else
         all_cards.filter fun card =>
           ((jd_keywords.filter fun kw => kw ≠ "").map pyLower).any fun kw =>
             strContains (cardSearchText card) kw) := rfl
  rw [heq]
  split_ifs with h1 h2 h3 h4
  · exact ⟨Or.inl rfl, List.Sublist.refl _, fun hne => ⟨hne, by omega⟩⟩
  · exact ⟨Or.inl rfl, List.Sublist.refl _, fun hne => ⟨hne, by omega⟩⟩
  · have hnil : all_cards = [] := List.length_eq_zero.mp h3
    subst hnil
    exact ⟨Or.inr rfl, List.filter_sublist _, fun hne => absurd rfl hne⟩
  · exact ⟨Or.inl rfl, List.Sublist.refl _, fun hne => ⟨hne, by omega⟩⟩
  · refine ⟨Or.inr rfl, List.filter_sublist _, fun hne => ⟨?_, by omega⟩⟩
    intro hnil
    rw [hnil] at h4
    simp only [List.length_nil] at h4
    omega

/-- Witness for C9: one card, one matching keyword — the filter keeps the
card, and the bounds hold. -/
theorem filter_evidence_cards_invariant_witness :
    filterRelevantEvidenceCards [exampleCard] ["text"] ≠ [] ∧
    ([exampleCard] : List EvidenceCard).length ≤
      5 * (filterRelevantEvidenceCards [exampleCard] ["text"]).length :=
  (filter_evidence_cards_invariant [exampleCard] ["text"]).2.2 (by decide)

/-- **C4.** For every agent name, payload, and tuple of cache-key inputs,
`LLMResultCache.get` with the same agent name and identical inputs,
immediately after `LLMResultCache.set` on the file backend, returns the
stored payload — provided no TTL was given (`None` or the falsy `0`) or the
TTL has not yet expired at read time. -/
theorem cache_get_after_set (fs : CacheFs) (cacheDir : String)
    (now nowRead : Rat) (agent_name : String) (result : PyVal)
    (cache_inputs : List PyVal) (ttl_seconds : Option Int)
    (httl : ∀ t, ttl_seconds = some t → t ≠ 0 → nowRead ≤ now + t) :
    (llmCacheGet
      (llmCacheSet fs cacheDir now agent_name result cache_inputs ttl_seconds)
      cacheDir nowRead agent_name cache_inputs).1 = some result := by
  unfold llmCacheGet llmCacheSet fileCacheGet fileCacheSet
  simp only [List.find?]
  cases ttl_seconds with
  | none => simp
  | some t =>
    by_cases ht : t = 0
    · simp [ht]
    · have hexp := httl t rfl ht
      simp [ht, not_lt_of_le hexp]

/-- Witness for C4: a concrete set/get pair with no TTL on an empty cache
directory. -/
theorem cache_get_after_set_witness :
    (llmCacheGet
      (llmCacheSet { files := [] } "./outputs/.cache" 0 "jd_analyst"
        (.str "payload") [.str "input"] none)
      "./outputs/.cache" 1 "jd_analyst" [.str "input"]).1 = some (.str "payload") :=
  cache_get_after_set { files := [] } "./outputs/.cache" 0 1 "jd_analyst"
    (.str "payload") [.str "input"] none (fun t ht => by cases ht)

/-- **C8.** On the raw text `{"items": ["a", "b"` (an unterminated list
inside an open object), direct parsing fails, `_repair_json` produces exactly
`{"items": ["a", "b"]}` (here the truncated-key heuristic adds no null/empty
fill, so the result is equivalent on the nose), and
`_parse_json_with_repair` returns the parsed object. -/
theorem repair_truncated_list_roundtrip :
    parseJson "\x7b\"items\": [\"a\", \"b\"" = none ∧
    repairJson "\x7b\"items\": [\"a\", \"b\"" = "\x7b\"items\": [\"a\", \"b\"]\x7d" ∧
    parseJsonWithRepair "\x7b\"items\": [\"a\", \"b\"" =
      .ok (.obj [("items", .arr [.str "a", .str "b"])]) :=
  ⟨rfl, rfl, rfl⟩

/-- **C5, counterexample.** `compute_hash` is *not* order-independent for
list inputs: the argument tuples `(["a", "b"],)` and `(["b", "a"],)` differ
only in the order of a sub-list, yet their SHA-256 fingerprints differ —
`json.dumps(..., sort_keys=True)` canonicalises dictionary key order only and
leaves list order intact. -/
theorem compute_hash_list_order_sensitive :
    compute_hash [.list [.str "a", .str "b"]] ≠
      compute_hash [.list [.str "b", .str "a"]] := by
  simp only [compute_hash, jsonDumpsVal, jsonDumpsList]
  decide

/-- **C5, amended.** `compute_hash` is deterministic (equal argument tuples
always produce equal hashes), and order-independence holds once an unordered
identifier list is sorted before hashing — which is exactly what the agents'
`get_cache_inputs` do (`tuple(sorted(...))`) before calling the cache:
two identifier lists that are permutations of one another yield the same
fingerprint after sorting. -/
theorem compute_hash_deterministic_and_sorted_inputs :
    (∀ args1 args2 : List PyVal, args1 = args2 →
      compute_hash args1 = compute_hash args2) ∧
    (∀ l l' : List String, l.Perm l' →
      compute_hash [.list ((sortedStrings l).map .str)] =
        compute_hash [.list ((sortedStrings l').map .str)]) := by
  refine ⟨fun args1 args2 h => by rw [h], fun l l' hperm => ?_⟩
  have hsorted : sortedStrings l = sortedStrings l' :=
    @List.eq_of_perm_of_sorted String (fun a b => a ≤ b)
      ⟨fun a b h1 h2 => le_antisymm h1 h2⟩ _ _
      (((List.perm_insertionSort _ l).trans hperm).trans
        (List.perm_insertionSort _ l').symm)
      (List.sorted_insertionSort _ l) (List.sorted_insertionSort _ l')
  rw [hsorted]

/-- Witness for the amended C5: the permuted identifier lists `["b", "a"]`
and `["a", "b"]` hash identically after sorting. -/
theorem compute_hash_sorted_inputs_witness :
    compute_hash [.list ((sortedStrings ["b", "a"]).map .str)] =
      compute_hash [.list ((sortedStrings ["a", "b"]).map .str)] :=
  compute_hash_deterministic_and_sorted_inputs.2 ["b", "a"] ["a", "b"] (by decide)

/-- Updating `current_step` leaves the retry counter unchanged. -/
lemma stepUpdate_retry_count (b : Blackboard) (x : String) :
    ({ b with current_step := x } : Blackboard).retry_count = b.retry_count := rfl

/-- Updating `current_step` leaves the retry limit unchanged. -/
lemma stepUpdate_max_retries (b : Blackboard) (x : String) :
    ({ b with current_step := x } : Blackboard).max_retries = b.max_retries := rfl

/-- Updating `evidence_cards` leaves the retry counter unchanged. -/
lemma cardsUpdate_retry_count (b : Blackboard) (x : List EvidenceCard) :
    ({ b with evidence_cards := x } : Blackboard).retry_count = b.retry_count := rfl

/-- Updating `evidence_cards` leaves the retry limit unchanged. -/
lemma cardsUpdate_max_retries (b : Blackboard) (x : List EvidenceCard) :
    ({ b with evidence_cards := x } : Blackboard).max_retries = b.max_retries := rfl

/-- When every stage call succeeds preserving the retry counter and limit,
and every audit produces a failed report, the pipeline loop started anywhere
other than `COMPLETE` reaches `FAILED` within `loopMeasure` iterations, and
the final retry counter stays bounded by the larger of the starting counter
(plus the one increment a started revision performs) and the retry limit. -/
lemma runLoop_fails_within_measure (agents : AgentExec)
    (hok : ∀ s b, ∃ b', agents s b = .ok b')
    (hpres : ∀ s b b', agents s b = .ok b' →
      b'.retry_count = b.retry_count ∧ b'.max_retries = b.max_retries)
    (haudit : ∀ b b', agents .AUDITING b = .ok b' →
      ∃ r, b'.audit_report = some r ∧ r.passed = false) :
    ∀ fuel s b cps, loopMeasure s b < fuel → s ≠ .COMPLETE →
      ∃ res, runLoop agents fuel s b cps = some res ∧ res.state = .FAILED ∧
        (res.board.retry_count ≤
            b.retry_count + (if s = .REVISION then 1 else 0) ∨
          res.board.retry_count ≤ b.max_retries) := by
  intro fuel
  induction fuel with
  | zero =>
    intro s b cps hm _
    exact absurd hm (Nat.not_lt_zero _)
  | succ fuel ih =>
    intro s b cps hm hs
    cases s with
    | COMPLETE => exact absurd rfl hs
    | FAILED =>
      refine ⟨⟨.FAILED, b, cps⟩, by simp [runLoop, isTerminal], rfl, Or.inl ?_⟩
      simp
    | INIT =>
      by_cases hval : (validateState { b with current_step := "init" }).1 = false
      · refine ⟨⟨.FAILED, { b with current_step := "failed" }, cps⟩, ?_, rfl,
          Or.inl (by simp)⟩
        simp [runLoop, isTerminal, executeState, PipelineState.nameLower, hval]
      · have hmea : loopMeasure .PREPROCESSING { b with current_step := "init" } < fuel := by
          unfold loopMeasure at hm ⊢
          simp only [stepUpdate_retry_count, stepUpdate_max_retries,
            stateRankBelow, stateRankAbove] at hm ⊢
          split_ifs at hm ⊢ <;> omega
        obtain ⟨res, hres, hst, hbd⟩ :=
          ih .PREPROCESSING { b with current_step := "init" } cps hmea (by simp)
        refine ⟨res, ?_, hst, ?_⟩
        · simpa [runLoop, isTerminal, executeState, PipelineState.nameLower, hval,
            getNextState_INIT] using hres
        · simpa [stepUpdate_retry_count, stepUpdate_max_retries] using hbd
    | PREPROCESSING =>
      obtain ⟨b', hb'⟩ := hok .PREPROCESSING { b with current_step := "preprocessing" }
      obtain ⟨hr, hmx⟩ := hpres _ _ _ hb'
      replace hr : b'.retry_count = b.retry_count := hr
      replace hmx : b'.max_retries = b.max_retries := hmx
      by_cases hval : (validateState b').1 = false
      · refine ⟨⟨.FAILED, { b' with current_step := "failed" }, cps⟩, ?_, rfl,
          Or.inl (by simp [hr])⟩
        simp [runLoop, isTerminal, executeState, PipelineState.nameLower, hb', hval]
      · have hmea : loopMeasure .JD_ANALYSIS b' < fuel := by
          unfold loopMeasure at hm ⊢
          rw [hr, hmx]
          simp only [stateRankBelow, stateRankAbove] at hm ⊢
          split_ifs at hm ⊢ <;> omega
        obtain ⟨res, hres, hst, hbd⟩ :=
          ih .JD_ANALYSIS b' (cps ++ [(b', .PREPROCESSING)]) hmea (by simp)
        refine ⟨res, ?_, hst, ?_⟩
        · simpa [runLoop, isTerminal, executeState, PipelineState.nameLower, hval,
            getNextState_PREPROCESSING, hb'] using hres
        · simpa [hr, hmx] using hbd
    | JD_ANALYSIS =>
      obtain ⟨b', hb'⟩ := hok .JD_ANALYSIS { b with current_step := "jd_analysis" }
      obtain ⟨hr, hmx⟩ := hpres _ _ _ hb'
      replace hr : b'.retry_count = b.retry_count := hr
      replace hmx : b'.max_retries = b.max_retries := hmx
      by_cases hval : (validateState b').1 = false
      · refine ⟨⟨.FAILED, { b' with current_step := "failed" }, cps⟩, ?_, rfl,
          Or.inl (by simp [hr])⟩
        simp [runLoop, isTerminal, executeState, PipelineState.nameLower, hb', hval]
      · have hmea : loopMeasure .EVIDENCE_MAPPING b' < fuel := by
          unfold loopMeasure at hm ⊢
          rw [hr, hmx]
          simp only [stateRankBelow, stateRankAbove] at hm ⊢
          split_ifs at hm ⊢ <;> omega
        obtain ⟨res, hres, hst, hbd⟩ :=
          ih .EVIDENCE_MAPPING b' (cps ++ [(b', .JD_ANALYSIS)]) hmea (by simp)
        refine ⟨res, ?_, hst, ?_⟩
        · simpa [runLoop, isTerminal, executeState, PipelineState.nameLower, hval,
            getNextState_JD_ANALYSIS, hb'] using hres
        · simpa [hr, hmx] using hbd
    | WRITING =>
      obtain ⟨b', hb'⟩ := hok .WRITING { b with current_step := "writing" }
      obtain ⟨hr, hmx⟩ := hpres _ _ _ hb'
      replace hr : b'.retry_count = b.retry_count := hr
      replace hmx : b'.max_retries = b.max_retries := hmx
      by_cases hval : (validateState b').1 = false
      · refine ⟨⟨.FAILED, { b' with current_step := "failed" }, cps⟩, ?_, rfl,
          Or.inl (by simp [hr])⟩
        simp [runLoop, isTerminal, executeState, PipelineState.nameLower, hb', hval]
      · have hmea : loopMeasure .AUDITING b' < fuel := by
          unfold loopMeasure at hm ⊢
          rw [hr, hmx]
          simp only [stateRankBelow, stateRankAbove] at hm ⊢
          split_ifs at hm ⊢ <;> omega
        obtain ⟨res, hres, hst, hbd⟩ :=
          ih .AUDITING b' (cps ++ [(b', .WRITING)]) hmea (by simp)
        refine ⟨res, ?_, hst, ?_⟩
        · simpa [runLoop, isTerminal, executeState, PipelineState.nameLower, hval,
            getNextState_WRITING, hb'] using hres
        · simpa [hr, hmx] using hbd
    | EVIDENCE_MAPPING =>
      cases hrp : b.role_profile with
      | none =>
        obtain ⟨b', hb'⟩ := hok .EVIDENCE_MAPPING { b with current_step := "evidence_mapping" }
        obtain ⟨hr, hmx⟩ := hpres _ _ _ hb'
        replace hr : b'.retry_count = b.retry_count := hr
        replace hmx : b'.max_retries = b.max_retries := hmx
        rw [hrp] at hb' 
        by_cases hval : (validateState b').1 = false
        · refine ⟨⟨.FAILED, { b' with current_step := "failed" }, cps⟩, ?_, rfl,
            Or.inl (by simp [hr])⟩
          simp [runLoop, isTerminal, executeState, PipelineState.nameLower, hrp, hb', hval]
        · have hmea : loopMeasure .WRITING b' < fuel := by
            unfold loopMeasure at hm ⊢
            rw [hr, hmx]
            simp only [stateRankBelow, stateRankAbove] at hm ⊢
            split_ifs at hm ⊢ <;> omega
          obtain ⟨res, hres, hst, hbd⟩ :=
            ih .WRITING b' (cps ++ [(b', .EVIDENCE_MAPPING)]) hmea (by simp)
          refine ⟨res, ?_, hst, ?_⟩
          · simpa [runLoop, isTerminal, executeState, PipelineState.nameLower, hval,
              getNextState_EVIDENCE_MAPPING, hrp, hb'] using hres
          · simpa [hr, hmx] using hbd
      | some rp =>
        obtain ⟨b', hb'⟩ := hok .EVIDENCE_MAPPING
          { b with
            current_step := "evidence_mapping",
            evidence_cards :=
              filterRelevantEvidenceCards b.evidence_cards (jdKeywordsOf rp) }
        obtain ⟨hr, hmx⟩ := hpres _ _ _ hb'
        replace hr : b'.retry_count = b.retry_count := hr
        replace hmx : b'.max_retries = b.max_retries := hmx
        rw [hrp] at hb' 
        by_cases hval : (validateState b').1 = false
        · refine ⟨⟨.FAILED, { b' with current_step := "failed" }, cps⟩, ?_, rfl,
            Or.inl (by simp [hr])⟩
          simp [runLoop, isTerminal, executeState, PipelineState.nameLower, hrp, hb', hval]
        · have hmea : loopMeasure .WRITING b' < fuel := by
            unfold loopMeasure at hm ⊢
            rw [hr, hmx]
            simp only [stateRankBelow, stateRankAbove] at hm ⊢
            split_ifs at hm ⊢ <;> omega
          obtain ⟨res, hres, hst, hbd⟩ :=
            ih .WRITING b' (cps ++ [(b', .EVIDENCE_MAPPING)]) hmea (by simp)
          refine ⟨res, ?_, hst, ?_⟩
          · simpa [runLoop, isTerminal, executeState, PipelineState.nameLower, hval,
              getNextState_EVIDENCE_MAPPING, hrp, hb'] using hres
          · simpa [hr, hmx] using hbd
    | AUDITING =>
      obtain ⟨b', hb'⟩ := hok .AUDITING { b with current_step := "auditing" }
      obtain ⟨hr, hmx⟩ := hpres _ _ _ hb'
      replace hr : b'.retry_count = b.retry_count := hr
      replace hmx : b'.max_retries = b.max_retries := hmx
      obtain ⟨r, hrep, hpass⟩ := haudit _ _ hb'
      by_cases hval : (validateState b').1 = false
      · refine ⟨⟨.FAILED, { b' with current_step := "failed" }, cps⟩, ?_, rfl,
          Or.inl (by simp [hr])⟩
        simp [runLoop, isTerminal, executeState, PipelineState.nameLower, hb', hval]
      · have hnext := getNextState_AUDITING b'
        rw [hrep] at hnext
        simp only [hpass, Bool.false_eq_true, if_false] at hnext
        by_cases hlt : b'.retry_count < b'.max_retries
        · rw [if_pos hlt] at hnext
          have hlt' : b.retry_count < b.max_retries := by
            rw [hr, hmx] at hlt
            exact hlt
          have hmea : loopMeasure .REVISION b' < fuel := by
            unfold loopMeasure at hm ⊢
            rw [hr, hmx]
            simp only [stateRankBelow, stateRankAbove] at hm ⊢
            split_ifs at hm ⊢ <;> omega
          obtain ⟨res, hres, hst, hbd⟩ :=
            ih .REVISION b' (cps ++ [(b', .AUDITING)]) hmea (by simp)
          refine ⟨res, ?_, hst, Or.inr ?_⟩
          · simpa [runLoop, isTerminal, executeState, PipelineState.nameLower, hval,
              hnext, hb'] using hres
          · rcases hbd with hbd | hbd
            · rw [hr] at hbd
              simp at hbd
              omega
            · rw [hmx] at hbd
              exact hbd
        · rw [if_neg hlt] at hnext
          have hmea : loopMeasure .FAILED b' < fuel := by
            unfold loopMeasure at hm ⊢
            rw [hr, hmx]
            simp only [stateRankBelow, stateRankAbove] at hm ⊢
            split_ifs at hm ⊢ <;> omega
          obtain ⟨res, hres, hst, hbd⟩ :=
            ih .FAILED b' (cps ++ [(b', .AUDITING)]) hmea (by simp)
          refine ⟨res, ?_, hst, ?_⟩
          · simpa [runLoop, isTerminal, executeState, PipelineState.nameLower, hval,
              hnext, hb'] using hres
          · rcases hbd with hbd | hbd
            · rw [hr] at hbd
              simp at hbd ⊢
              exact Or.inl hbd
            · rw [hmx] at hbd
              exact Or.inr hbd
    | REVISION =>
      have hr : (prepareRevision { b with
          current_step := "revision",
          retry_count := b.retry_count + 1 }).retry_count = b.retry_count + 1 :=
        (prepareRevision_fields _).1
      have hmx : (prepareRevision { b with
          current_step := "revision",
          retry_count := b.retry_count + 1 }).max_retries = b.max_retries :=
        (prepareRevision_fields _).2.1
      by_cases hval : (validateState (prepareRevision
          { b with
            current_step := "revision",
            retry_count := b.retry_count + 1 })).1 = false
      · refine ⟨⟨.FAILED, { (prepareRevision
            { b with
              current_step := "revision",
              retry_count := b.retry_count + 1 })
            with current_step := "failed" }, cps⟩, ?_, rfl, Or.inl ?_⟩
        · simp [runLoop, isTerminal, executeState, PipelineState.nameLower, hval]
        · simp [hr]
      · have hmea : loopMeasure .WRITING (prepareRevision
            { b with
              current_step := "revision",
              retry_count := b.retry_count + 1 }) < fuel := by
          unfold loopMeasure at hm ⊢
          rw [hr, hmx]
          simp only [stateRankBelow, stateRankAbove] at hm ⊢
          split_ifs at hm ⊢ <;> omega
        obtain ⟨res, hres, hst, hbd⟩ :=
          ih .WRITING (prepareRevision
            { b with
              current_step := "revision",
              retry_count := b.retry_count + 1 })
            (cps ++ [((prepareRevision
              { b with
              current_step := "revision",
              retry_count := b.retry_count + 1 }),
              .REVISION)]) hmea (by simp)
        refine ⟨res, ?_, hst, ?_⟩
        · simpa [runLoop, isTerminal, executeState, PipelineState.nameLower, hval,
            getNextState_WRITING] using hres
        · rcases hbd with hbd | hbd
          · rw [hr] at hbd
            simp at hbd ⊢
            exact Or.inl (by omega)
          · rw [hmx] at hbd
            exact Or.inr hbd

/-- **C2.** When every audit produces a failed report and no audit-failure
resolver is supplied (stages succeed and, being external collaborators, do
not touch the retry bookkeeping): executing the `REVISION` state increments
`retry_count` by exactly one; no state execution ever decreases
`retry_count`; once `retry_count ≥ max_retries` a failed audit transitions to
`FAILED`; and the pipeline loop from `INIT` terminates in the `FAILED` state
within `3 * max_retries + 7` iterations — at most `max_retries` revision
cycles of three states each plus the straight-line prefix — with the final
retry counter bounded by `max_retries`.  In particular the loop never runs
forever. -/
theorem revision_loop_bounded (agents : AgentExec)
    (hok : ∀ s b, ∃ b', agents s b = .ok b')
    (hpres : ∀ s b b', agents s b = .ok b' →
      b'.retry_count = b.retry_count ∧ b'.max_retries = b.max_retries)
    (haudit : ∀ b b', agents .AUDITING b = .ok b' →
      ∃ r, b'.audit_report = some r ∧ r.passed = false)
    (b : Blackboard) (hretry : b.retry_count = 0) (hmax : 0 ≤ b.max_retries) :
    (∀ x, ∃ x', executeState agents .REVISION x = .ok x' ∧
      x'.retry_count = x.retry_count + 1) ∧
    (∀ s x x', executeState agents s x = .ok x' →
      x.retry_count ≤ x'.retry_count) ∧
    (∀ x r, x.audit_report = some r → r.passed = false →
      x.max_retries ≤ x.retry_count → getNextState .AUDITING x = some .FAILED) ∧
    (∃ res, runLoop agents (3 * b.max_retries.toNat + 7) .INIT b [] = some res ∧
      res.state = .FAILED ∧ res.board.retry_count ≤ b.max_retries) := by
  refine ⟨?_, ?_, ?_, ?_⟩
  · intro x
    exact ⟨_, rfl, (prepareRevision_fields _).1⟩
  · intro s x x' h
    cases s with
    | PREPROCESSING =>
      have := (hpres _ _ _ h).1
      omega
    | JD_ANALYSIS =>
      have := (hpres _ _ _ h).1
      omega
    | WRITING =>
      have := (hpres _ _ _ h).1
      omega
    | AUDITING =>
      have := (hpres _ _ _ h).1
      omega
    | EVIDENCE_MAPPING =>
      cases hrp : x.role_profile with
      | none =>
        rw [executeState] at h
        rw [hrp] at h
        have := (hpres _ _ _ h).1
        simp at this
        omega
      | some rp =>
        rw [executeState] at h
        rw [hrp] at h
        have := (hpres _ _ _ h).1
        simp at this
        omega
    | REVISION =>
      simp only [executeState, Except.ok.injEq] at h
      subst h
      have hpr : (prepareRevision
          { x with retry_count := x.retry_count + 1 }).retry_count =
          x.retry_count + 1 :=
        (prepareRevision_fields _).1
      omega
    | INIT =>
      simp only [executeState, Except.ok.injEq] at h
      subst h
      omega
    | COMPLETE =>
      simp only [executeState, Except.ok.injEq] at h
      subst h
      omega
    | FAILED =>
      simp only [executeState, Except.ok.injEq] at h
      subst h
      omega
  · intro x r hx hp hge
    rw [getNextState_AUDITING, hx]
    simp [hp, not_lt_of_le hge]
  · have hmea : loopMeasure .INIT b < 3 * b.max_retries.toNat + 7 := by
      unfold loopMeasure
      simp only [stateRankBelow, stateRankAbove]
      split_ifs <;> omega
    obtain ⟨res, hres, hst, hbd⟩ :=
      runLoop_fails_within_measure agents hok hpres haudit
        (3 * b.max_retries.toNat + 7) .INIT b [] hmea (by simp)
    refine ⟨res, hres, hst, ?_⟩
    rcases hbd with hbd | hbd
    · simp at hbd
      omega
    · exact hbd

/-- Witness for C2: the concrete always-failing-audit collaborators on the
example blackboard (`retry_count = 0`, `max_retries = 3`) drive the loop to
`FAILED` within 16 iterations with the retry counter at most 3. -/
theorem revision_loop_bounded_witness :
    ∃ res, runLoop stubFailingAuditAgents 16 .INIT exampleBoard [] = some res ∧
      res.state = .FAILED ∧ res.board.retry_count ≤ 3 :=
  (revision_loop_bounded stubFailingAuditAgents
    (fun s b => by cases s <;> exact ⟨_, rfl⟩)
    (fun s x x' h => by
      cases s <;> simp [stubFailingAuditAgents] at h <;> subst h <;> exact ⟨rfl, rfl⟩)
    (fun x x' h => by
      simp [stubFailingAuditAgents] at h
      subst h
      exact ⟨_, rfl, rfl⟩)
    exampleBoard rfl (by decide)).2.2.2

/-- **C7, amended.** When a stage execution raises an unexpected exception,
the exception is caught, a checkpoint of the in-flight blackboard is still
recorded (for any state other than `INIT`), the loop transitions to `FAILED`,
and an `OrchestrationError` is raised from the `FAILED` terminal state.  Its
message reports `blackboard.current_step` — which the exception handler has
already overwritten with `"failed"` — and the originating exception is logged
but not attached to the raised error, so the message is always
`"Pipeline failed at step: failed"` regardless of the failing stage or
cause. -/
theorem exception_path_checkpoint_and_failed (agents : AgentExec) (fuel : Nat)
    (s : PipelineState) (b : Blackboard) (emsg : String)
    (hterm : isTerminal s = false) (hinit : s ≠ .INIT)
    (hexec : executeState agents s { b with current_step := s.nameLower } =
      .error emsg) :
    runFromState agents (fuel + 1) s b =
      some ⟨{ b with current_step := "failed" },
        [({ b with current_step := s.nameLower }, s)],
        some "Pipeline failed at step: failed"⟩ := by
  unfold runFromState
  simp [runLoop, hterm, hexec, hinit]

/-- Witness for the amended C7: every stage of `throwingAgents` raises; from
`PREPROCESSING` on the example blackboard the run records the checkpoint
attempt and surfaces the fixed failure message. -/
theorem exception_path_checkpoint_and_failed_witness :
    runFromState throwingAgents 5 .PREPROCESSING exampleBoard =
      some ⟨{ exampleBoard with current_step := "failed" },
        [({ exampleBoard with current_step := "preprocessing" }, .PREPROCESSING)],
        some "Pipeline failed at step: failed"⟩ :=
  exception_path_checkpoint_and_failed throwingAgents 4 .PREPROCESSING
    exampleBoard "boom" rfl (by decide) rfl

/-- **C7, counterexample.** The claim that the raised `OrchestrationError`
"carries the originating cause of the failure together with the last stage"
is false: with a stage raising `"boom"` at `PREPROCESSING`, the raised
error's message is exactly `"Pipeline failed at step: failed"` — it names
neither the stage (`current_step` was overwritten with `"failed"` before the
message was built) nor the exception text, and the original exception is not
chained onto the raised error (`raise OrchestrationError(...)` without
`from e`). -/
theorem run_error_drops_stage_and_cause :
    (runFromState throwingAgents 5 .PREPROCESSING exampleBoard).map
        (fun out => out.errorMsg) =
      some (some "Pipeline failed at step: failed") ∧
    strContains "Pipeline failed at step: failed" "preprocessing" = false ∧
    strContains "Pipeline failed at step: failed" "boom" = false :=
  ⟨rfl, rfl, rfl⟩

end ResumeForge
